import Mathlib

/-
  Verification of the ShopFlux eCommerce API routes.

  Shallow embedding of the order-creation workflow (app/api/orders route),
  the product catalog route (app/api/products route) and the users route
  (app/api/users/route.ts).  JavaScript numbers are modelled as an inductive
  type with NaN and the two infinities over exact rationals (IEEE-754
  rounding does not matter for any property proved here: all arithmetic in
  the claims is on small integers).  JSON values are modelled inductively;
  `undefined` is the absence of a key, i.e. an `Option` at lookup sites.
-/

namespace ShopFlux

/-! ## JavaScript numbers -/

/-- A JavaScript number: NaN, +Infinity, -Infinity, or a finite value.
Finite doubles are modelled as exact rationals; the claims under study only
ever do small-integer arithmetic, where doubles are exact. -/
inductive JNum where
  | nan
  | inf
  | ninf
  | fin (q : ℚ)
deriving Repr, DecidableEq

namespace JNum

/-- JS `Number.isFinite`. -/
def isFinite : JNum → Bool
  | fin _ => true
  | _ => false

/-- JS `<=` on numbers: every comparison involving NaN is false. -/
def jle : JNum → JNum → Bool
  | nan, _ => false
  | _, nan => false
  | ninf, _ => true
  | _, ninf => false
  | fin a, fin b => a ≤ b
  | fin _, inf => true
  | inf, inf => true
  | inf, fin _ => false

/-- JS `<` on numbers: every comparison involving NaN is false. -/
def jlt : JNum → JNum → Bool
  | nan, _ => false
  | _, nan => false
  | ninf, ninf => false
  | ninf, _ => true
  | _, ninf => false
  | fin a, fin b => a < b
  | fin _, inf => true
  | inf, _ => false

/-- JS `===` on numbers: NaN equals nothing, not even itself. -/
def jeq : JNum → JNum → Bool
  | nan, _ => false
  | _, nan => false
  | fin a, fin b => a == b
  | inf, inf => true
  | ninf, ninf => true
  | _, _ => false

/-- JS `Math.floor`. -/
def jfloor : JNum → JNum
  | nan => nan
  | inf => inf
  | ninf => ninf
  | fin q => fin (⌊q⌋ : ℤ)

/-- JS `Math.max` on two arguments: NaN if either argument is NaN. -/
def jmax (a b : JNum) : JNum :=
  if a = nan ∨ b = nan then nan else if jle a b then b else a

/-- JS `Math.min` on two arguments: NaN if either argument is NaN. -/
def jmin (a b : JNum) : JNum :=
  if a = nan ∨ b = nan then nan else if jle a b then a else b

/-- JS unary minus. -/
def jneg : JNum → JNum
  | nan => nan
  | inf => ninf
  | ninf => inf
  | fin q => fin (-q)

/-- JS `+` on numbers (without overflow to infinity, which cannot occur in
the small-integer arithmetic of the claims). -/
def jadd : JNum → JNum → JNum
  | nan, _ => nan
  | _, nan => nan
  | inf, ninf => nan
  | ninf, inf => nan
  | inf, _ => inf
  | _, inf => inf
  | ninf, _ => ninf
  | _, ninf => ninf
  | fin a, fin b => fin (a + b)

/-- JS `-` on numbers. -/
def jsub (a b : JNum) : JNum := jadd a (jneg b)

/-- JS `*` on numbers (without overflow to infinity). -/
def jmul : JNum → JNum → JNum
  | nan, _ => nan
  | _, nan => nan
  | fin a, fin b => fin (a * b)
  | inf, inf => inf
  | inf, ninf => ninf
  | ninf, inf => ninf
  | ninf, ninf => inf
  | inf, fin b => if b = 0 then nan else if 0 < b then inf else ninf
  | fin a, inf => if a = 0 then nan else if 0 < a then inf else ninf
  | ninf, fin b => if b = 0 then nan else if 0 < b then ninf else inf
  | fin a, ninf => if a = 0 then nan else if 0 < a then ninf else inf

end JNum

/-! ## JSON values -/

/-- A JSON value, as produced by `JSON.parse` of a request body or of the
products file.  There is no `undefined` constructor: `undefined` only arises
from a missing key, which object lookup reports as `Option.none`. -/
inductive JValue where
  | null
  | bool (b : Bool)
  | num (n : JNum)
  | str (s : String)
  | arr (elems : List JValue)
  | obj (fields : List (String × JValue))
deriving Repr

/-- Key lookup in an object field list (JSON objects have distinct keys, so
first-match lookup agrees with JS property access). -/
def lookupField : List (String × JValue) → String → Option JValue
  | [], _ => none
  | (k', v) :: rest, k => if k' = k then some v else lookupField rest k

/-- JS property access `o[k]`: `none` models `undefined` (missing key or a
non-object base — arrays have no named properties of interest here). -/
def objGet : JValue → String → Option JValue
  | .obj fields, k => lookupField fields k
  | _, _ => none

/-- JS `typeof x === "object" && x !== null`: objects and arrays pass. -/
def isObjectLike : JValue → Bool
  | .obj _ => true
  | .arr _ => true
  | _ => false

/-- JS truthiness of a value. -/
def truthy : JValue → Bool
  | .null => false
  | .bool b => b
  | .num .nan => false
  | .num (.fin q) => q ≠ 0
  | .num _ => true
  | .str s => s ≠ ""
  | .arr _ => true
  | .obj _ => true

/-- The top-level keys of an object (empty for non-objects). -/
def jvalKeys : JValue → List String
  | .obj fields => fields.map Prod.fst
  | _ => []

/-! ## String helpers (JS `String.prototype.includes`, lower-casing) -/

/-- Does the pattern occur at the start of the character list? -/
def charsStartWith : List Char → List Char → Bool
  | [], _ => true
  | _ :: _, [] => false
  | p :: ps, c :: cs => p == c && charsStartWith ps cs

/-- Does the pattern occur anywhere in the character list? -/
def charsContain (pat : List Char) : List Char → Bool
  | [] => charsStartWith pat []
  | c :: cs => charsStartWith pat (c :: cs) || charsContain pat cs

/-- JS `s.includes(pat)`. -/
def strContains (s pat : String) : Bool := charsContain pat.toList s.toList

/-- JS `\s` (ASCII part; the Unicode space classes never occur in the
claims). -/
def jsWs (c : Char) : Bool :=
  c = ' ' ∨ c = '\t' ∨ c = '\n' ∨ c = '\r' ∨ c = '\x0b' ∨ c = '\x0c'

/-- Lower-casing of one character (ASCII; the route's strings are ASCII,
where JS `toLowerCase` does exactly this). -/
def charLower (c : Char) : Char :=
  if 'A' ≤ c ∧ c ≤ 'Z' then Char.ofNat (c.toNat + 32) else c

/-- JS `s.toLowerCase()` on ASCII strings. -/
def strToLower (s : String) : String := String.mk (s.toList.map charLower)

/-- JS `s.trim()` on ASCII strings: strip leading and trailing
whitespace. -/
def strTrim (s : String) : String :=
  String.mk (((s.toList.dropWhile jsWs).reverse.dropWhile jsWs).reverse)

/-! ## Order payload validation (`validateOrderPayload`) -/

/-- A validated order item (`OrderItemRequest` in the source). -/
structure OrderItemRequest where
  productId : String
  quantity : ℚ
  price : Option ℚ
deriving Repr, DecidableEq

/-- A validated order-creation request (`CreateOrderRequest` in the source). -/
structure CreateOrderRequest where
  userId : String
  items : List OrderItemRequest
  shipping : Option JValue
  paymentMethod : Option String
  total : ℚ
deriving Repr

/-- The validator's error message for a bad quantity at an item index. -/
def qtyMsg (idx : Nat) : String :=
  "Missing or invalid 'quantity' for item at index " ++ toString idx
    ++ ". Must be a positive integer."

/-- The validator's error message for a bad productId at an item index. -/
def pidMsg (idx : Nat) : String :=
  "Missing or invalid 'productId' for item at index " ++ toString idx ++ "."

/-- The validator's error message for a bad price at an item index. -/
def priceMsg (idx : Nat) : String :=
  "Invalid 'price' for item at index " ++ toString idx ++ "."

/-- The validator's error message for a non-object item at an index. -/
def itemObjMsg (idx : Nat) : String :=
  "Item at index " ++ toString idx ++ " must be an object."

/-- The validator's error message for a bad total. -/
def totalMsg : String :=
  "Missing or invalid 'total'. Must be a non-negative number."

/-- Validation of one entry of `items` (the callback of `p.items.map`).
JS notes: `typeof it === "object"` also accepts arrays (which then fail the
productId check, since arrays lack that property); for the quantity the
source requires `typeof === "number"`, `Number.isFinite`, `> 0` and
`Math.floor(q) === q` — NaN and the infinities fail `Number.isFinite`, and a
finite double equals its floor exactly when it is an integer. -/
def validateItem (idx : Nat) (it : JValue) : Except String OrderItemRequest :=
  if isObjectLike it = false then .error (itemObjMsg idx)
  else
    match objGet it "productId" with
    | some (.str s) =>
        if s = "" then .error (pidMsg idx)
        else
          match objGet it "quantity" with
          | some (.num (.fin q)) =>
              if q ≤ 0 ∨ ¬((⌊q⌋ : ℚ) = q) then .error (qtyMsg idx)
              else
                match objGet it "price" with
                | none => .ok { productId := s, quantity := q, price := none }
                | some (.num (.fin p)) => .ok { productId := s, quantity := q, price := some p }
                | some _ => .error (priceMsg idx)
          | _ => .error (qtyMsg idx)
    | _ => .error (pidMsg idx)

/-- Validation of the whole `items` array, left to right, stopping at the
first failure (a throwing callback aborts `Array.prototype.map`). -/
def validateItems : Nat → List JValue → Except String (List OrderItemRequest)
  | _, [] => .ok []
  | idx, it :: rest =>
      match validateItem idx it with
      | .error e => .error e
      | .ok r =>
          match validateItems (idx + 1) rest with
          | .error e => .error e
          | .ok rs => .ok (r :: rs)

/-- The normalized `shipping` field: kept when truthy and object-typed. -/
def shippingOf (payload : JValue) : Option JValue :=
  match objGet payload "shipping" with
  | some v => if truthy v && isObjectLike v then some v else none
  | none => none

/-- The normalized `paymentMethod` field: kept when a truthy string. -/
def paymentMethodOf (payload : JValue) : Option String :=
  match objGet payload "paymentMethod" with
  | some (.str s) => if s = "" then none else some s
  | _ => none

/-- `validateOrderPayload` from the orders route: checks the payload shape
and either returns the normalized request or fails with the first offending
field's message. -/
def validateOrderPayload (payload : JValue) : Except String CreateOrderRequest :=
  if isObjectLike payload = false then .error "Payload must be a JSON object."
  else
    match objGet payload "userId" with
    | some (.str u) =>
        if u = "" then .error "Missing or invalid 'userId'."
        else
          match objGet payload "items" with
          | some (.arr xs) =>
              if xs.isEmpty then .error "'items' must be a non-empty array."
              else
                match validateItems 0 xs with
                | .error e => .error e
                | .ok items =>
                    match objGet payload "total" with
                    | some (.num (.fin t)) =>
                        if t < 0 then .error totalMsg
                        else .ok { userId := u, items := items,
                                   shipping := shippingOf payload,
                                   paymentMethod := paymentMethodOf payload,
                                   total := t }
                    | _ => .error totalMsg
          | _ => .error "'items' must be a non-empty array."
    | _ => .error "Missing or invalid 'userId'."

/-! ## The relational store behind the orders route

The orders route talks to Prisma models `User`, `Product`, `Order`,
`OrderItem`.  The store is the collection of rows; `nextOrderId` models the
id the database would assign to the next created order. -/

/-- A product row as the orders route selects it
(`select { id, price, stock, name }`).  `price` is nullable (the route
falls back with `?? 0`); `stock` is `some` exactly when the column holds a
number — `none` models a non-numeric (untracked) stock, for which the route
skips both the availability check and the decrement. -/
structure ProductR where
  id : String
  name : String
  price : Option ℚ
  stock : Option ℚ
deriving Repr, DecidableEq

/-- A user row (the fields the route reads or serializes; `password` is
present on the row and must never reach a response). -/
structure UserR where
  id : String
  name : String
  email : String
  password : String
deriving Repr, DecidableEq

/-- An order row as created by the route. -/
structure OrderR where
  id : Nat
  userId : String
  total : ℚ
  status : String
  paymentMethod : Option String
  shipping : Option JValue
deriving Repr

/-- An order-item row as created by the route. -/
structure OrderItemR where
  orderId : Nat
  productId : String
  quantity : ℚ
  price : ℚ
deriving Repr, DecidableEq

/-- The relational store. -/
structure Store where
  users : List UserR
  products : List ProductR
  orders : List OrderR
  orderItems : List OrderItemR
  nextOrderId : Nat
deriving Repr

/-- `new Map(entries).get(k)`: the last entry with the key wins. -/
def mapGet : List ProductR → String → Option ProductR
  | [], _ => none
  | p :: rest, pid =>
      match mapGet rest pid with
      | some r => some r
      | none => if p.id = pid then some p else none

/-- `prisma.user.findUnique({ where: { id } })`. -/
def findUser (st : Store) (uid : String) : Option UserR :=
  st.users.find? (fun u => u.id = uid)

/-- `prisma.product.findMany({ where: { id: { in: productIds } } })`: the
rows whose id is referenced by some item (`Array.from(new Set(...))` only
deduplicates the id list, which does not change this predicate). -/
def fetchedProducts (st : Store) (items : List OrderItemRequest) : List ProductR :=
  st.products.filter (fun p => (items.map OrderItemRequest.productId).contains p.id)

/-- The route's `productsById.get` on the fetched snapshot rows. -/
def orderLookup (st : Store) (items : List OrderItemRequest) : String → Option ProductR :=
  mapGet (fetchedProducts st items)

/-! ## HTTP responses -/

/-- An HTTP response: status code and JSON body. -/
structure Http where
  status : Nat
  body : JValue
deriving Repr

/-- The `{ success: false, error: message }` error envelope. -/
def errorBody (msg : String) : JValue :=
  .obj [("success", .bool false), ("error", .str msg)]

/-- The insufficient-stock message (names the product and states the
requested and available quantities). -/
def insufficientMsg (name pid : String) (requested available : ℚ) : String :=
  "Insufficient stock for product " ++ name ++ " (" ++ pid ++ "). Requested "
    ++ toString requested ++ ", available " ++ toString available ++ "."

/-- The product-not-found message. -/
def productNotFoundMsg (pid : String) : String :=
  "Product not found: " ++ pid

/-- The error classification of the route's catch block
(`message && message.toLowerCase().includes("missing") ||
message.toLowerCase().includes("invalid")` — note `&&` binds tighter than
`||` in JS): such messages get 400, all others 500. -/
def errStatus (msg : String) : Nat :=
  if (msg ≠ "" && strContains (strToLower msg) "missing") || strContains (strToLower msg) "invalid"
  then 400 else 500

/-! ## POST /orders -/

/-- The pre-transaction per-item loop: each item's product must exist in
the fetched snapshot, and when its snapshot stock is a number the requested
quantity must not exceed it.  Returns the first failure's response. -/
def checkItems (lookup : String → Option ProductR) : List OrderItemRequest → Option Http
  | [] => none
  | item :: rest =>
      match lookup item.productId with
      | none => some ⟨404, errorBody (productNotFoundMsg item.productId)⟩
      | some prod =>
          match prod.stock with
          | some s =>
              if s < item.quantity
              then some ⟨400, errorBody (insufficientMsg prod.name prod.id item.quantity s)⟩
              else checkItems lookup rest
          | none => checkItems lookup rest

/-- The order-item snapshot price: the explicit item price if given, else
the product's current catalog price, else 0 (`item.price ?? prod.price ?? 0`). -/
def snapshotPrice (lookup : String → Option ProductR) (item : OrderItemRequest) : ℚ :=
  match item.price with
  | some p => p
  | none =>
      match lookup item.productId with
      | some prod => prod.price.getD 0
      | none => 0

/-- Stock decrement of one product id by a quantity
(`tx.product.update({ where: { id }, data: { stock: { decrement: q } } })`,
applied by the database to the current row value). -/
def decrementStock (pid : String) (q : ℚ) (ps : List ProductR) : List ProductR :=
  ps.map (fun p => if p.id = pid then { p with stock := p.stock.map (· - q) } else p)

/-- The transaction's per-item loop: create the order-item row, and if the
snapshot product's stock is a number, decrement the stored stock.  `none`
models the `productsById.get(...)!` assertion failing (unreachable after
`checkItems`), which would throw and roll the transaction back. -/
def applyItems (lookup : String → Option ProductR) (orderId : Nat) :
    List OrderItemRequest → Store → Option Store
  | [], st => some st
  | item :: rest, st =>
      match lookup item.productId with
      | none => none
      | some prod =>
          let oi : OrderItemR :=
            { orderId := orderId, productId := item.productId,
              quantity := item.quantity, price := item.price.getD (prod.price.getD 0) }
          let st' : Store :=
            { st with
              orderItems := st.orderItems ++ [oi],
              products :=
                if prod.stock.isSome
                then decrementStock item.productId item.quantity st.products
                else st.products }
          applyItems lookup orderId rest st'

/-- The order row the transaction creates. -/
def mkOrder (st : Store) (data : CreateOrderRequest) : OrderR :=
  { id := st.nextOrderId, userId := data.userId, total := data.total,
    status := "pending", paymentMethod := data.paymentMethod,
    shipping := data.shipping }

/-- The `prisma.$transaction` body: create the order row, then the item
rows with their stock decrements.  `none` is a mid-transaction throw: the
store is rolled back by the caller. -/
def createOrderTx (st : Store) (data : CreateOrderRequest)
    (lookup : String → Option ProductR) : Option (Store × OrderR) :=
  let order := mkOrder st data
  let st1 : Store :=
    { st with orders := st.orders ++ [order], nextOrderId := st.nextOrderId + 1 }
  (applyItems lookup order.id data.items st1).map (fun st2 => (st2, order))

/-- Rendering of a product row (`include: { product: true }`). -/
def renderProduct (p : ProductR) : JValue :=
  .obj [("id", .str p.id), ("name", .str p.name),
        ("price", match p.price with | some q => .num (.fin q) | none => .null),
        ("stock", match p.stock with | some q => .num (.fin q) | none => .null)]

/-- Rendering of an order-item row with its included product. -/
def renderOrderItem (st : Store) (oi : OrderItemR) : JValue :=
  .obj [("orderId", .num (.fin oi.orderId)), ("productId", .str oi.productId),
        ("quantity", .num (.fin oi.quantity)), ("price", .num (.fin oi.price)),
        ("product",
          match st.products.find? (fun p => p.id = oi.productId) with
          | some p => renderProduct p
          | none => .null)]

/-- The user projection of the orders route
(`user: { select: { id: true, name: true, email: true } }`): exactly the
three selected columns, never the password. -/
def renderUserSelect (u : UserR) : JValue :=
  .obj [("id", .str u.id), ("name", .str u.name), ("email", .str u.email)]

/-- Re-reading an order with its items and its user projection
(`findUnique` with `include`). -/
def renderFullOrder (st : Store) (order : OrderR) : JValue :=
  .obj [("id", .num (.fin order.id)), ("userId", .str order.userId),
        ("total", .num (.fin order.total)), ("status", .str order.status),
        ("paymentMethod",
          match order.paymentMethod with | some s => .str s | none => .null),
        ("shipping", order.shipping.getD .null),
        ("items", .arr ((st.orderItems.filter (fun oi => oi.orderId = order.id)).map
                          (renderOrderItem st))),
        ("user",
          match findUser st order.userId with
          | some u => renderUserSelect u
          | none => .null)]

/-- The message of the TypeError thrown by the (unreachable after
`checkItems`) `productsById.get(item.productId)!` dereference in the
transaction; it contains neither "missing" nor "invalid", so the catch
block maps it to 500. -/
def txThrowMsg : String :=
  "Cannot read properties of undefined (reading 'stock')"

/-- POST /api/orders: validate the payload, check the user, fetch the
referenced products, run the per-item precondition loop, then create the
order and its items in a transaction and answer 201 with the hydrated
order.  Every failure leaves the store unchanged. -/
def postOrders (st : Store) (payload : JValue) : Http × Store :=
  match validateOrderPayload payload with
  | .error msg => (⟨errStatus msg, errorBody msg⟩, st)
  | .ok data =>
      match findUser st data.userId with
      | none => (⟨404, errorBody "User not found."⟩, st)
      | some _ =>
          let lookup := orderLookup st data.items
          match checkItems lookup data.items with
          | some resp => (resp, st)
          | none =>
              match createOrderTx st data lookup with
              | none => (⟨errStatus txThrowMsg, errorBody txThrowMsg⟩, st)
              | some (st', order) =>
                  (⟨201, .obj [("success", .bool true),
                               ("data", renderFullOrder st' order)]⟩, st')

/-- GET /api/orders: all orders, newest first (creation order reversed,
ids being assigned in creation order), each with items and the minimal
user projection. -/
def getOrders (st : Store) : Http :=
  ⟨200, .obj [("success", .bool true),
              ("data", .arr (st.orders.reverse.map (renderFullOrder st)))]⟩

/-! ## Users route (app/api/users/route.ts)

With the project's lib/db exporting the Prisma client only as the default
export, the route's adapter detection falls through to the in-memory store;
user records are plain JSON objects.  The password hash and the generated
id and timestamps are passed in as parameters (crypto and the clock are
external). -/

/-- `sanitizeUser`: falsy inputs are returned unchanged; for an object,
rest-destructuring drops the `password` key; rest-destructuring any other
(truthy, primitive) value yields an empty object.  (The index keys produced
for an array input are not modelled; no adapter returns an array row.) -/
def sanitizeUser (u : JValue) : JValue :=
  if truthy u = false then u
  else
    match u with
    | .obj fields => .obj (fields.filter (fun kv => ¬(kv.1 = "password")))
    | _ => .obj []

/-- JS `===` between JSON values of distinct provenance: primitives compare
by value (NaN equal to nothing); objects and arrays compare by reference,
hence `false` here (the compared references are always distinct). -/
def strictEqPrim : JValue → JValue → Bool
  | .null, .null => true
  | .bool x, .bool y => x == y
  | .num x, .num y => x.jeq y
  | .str x, .str y => x == y
  | _, _ => false

/-- An empty query-string value is falsy in the route's `if (id)` tests. -/
def normParam : Option String → Option String
  | some s => if s = "" then none else some s
  | none => none

/-- Truthiness of a possibly-missing property. -/
def truthyOpt : Option JValue → Bool
  | some v => truthy v
  | none => false

/-- Memory-store `getById` (map lookup by the id the record was keyed by,
which is its `id` field). -/
def getById (us : List JValue) (id : String) : Option JValue :=
  us.find? (fun u =>
    match objGet u "id" with
    | some (.str s) => s = id
    | _ => false)

/-- Memory-store `getByEmail` (`v.email === email`). -/
def getByEmailV (us : List JValue) (v : JValue) : Option JValue :=
  us.find? (fun u =>
    match objGet u "email" with
    | some ev => strictEqPrim ev v
    | none => false)

/-- `x ?? d`: nullish coalescing on a possibly-missing property. -/
def nullishGetD (v : Option JValue) (d : JValue) : JValue :=
  match v with
  | some .null => d
  | some x => x
  | none => d

/-- Overwrite-or-append a key in an object's field list (JS property
assignment / later spread entries winning). -/
def setField (fs : List (String × JValue)) (k : String) (v : JValue) :
    List (String × JValue) :=
  if fs.any (fun kv => kv.1 = k) then fs.map (fun kv => if kv.1 = k then (k, v) else kv)
  else fs ++ [(k, v)]

/-- `{ ...base, ...overlay }`: overlay keys override. -/
def mergeFields (base : List (String × JValue)) :
    List (String × JValue) → List (String × JValue)
  | [] => base
  | (k, v) :: rest => mergeFields (setField base k v) rest

/-- The own enumerable fields a spread takes from a value (a primitive
contributes none). -/
def objFields : JValue → List (String × JValue)
  | .obj fs => fs
  | _ => []

/-- The message of the TypeError `crypto.createHash(...).update(x)` throws
when `x` is not a string (reaches the route's catch block, hence 500). -/
def hashTypeErrorMsg : String :=
  "The \"data\" argument must be of type string or an instance of Buffer, TypedArray, or DataView."

/-- GET /api/users: a single user by id, else by email, else all users;
every returned user passes through `sanitizeUser`. -/
def getUsers (us : List JValue) (idP emailP : Option String) : Http :=
  match normParam idP with
  | some id =>
      match getById us id with
      | none => ⟨404, .obj [("error", .str "User not found")]⟩
      | some u => ⟨200, sanitizeUser u⟩
  | none =>
      match normParam emailP with
      | some em =>
          match getByEmailV us (.str em) with
          | none => ⟨404, .obj [("error", .str "User not found")]⟩
          | some u => ⟨200, sanitizeUser u⟩
      | none => ⟨200, .arr (us.map sanitizeUser)⟩

/-- POST /api/users: require truthy email and password, reject duplicate
emails with 409, store the record with the hashed password and respond 201
with the sanitized record. -/
def postUsers (hash : String → String) (genId now : String)
    (us : List JValue) (body : JValue) : Http × List JValue :=
  if truthy body = false || truthyOpt (objGet body "email") = false
      || truthyOpt (objGet body "password") = false then
    (⟨400, .obj [("error", .str "Email and password are required")]⟩, us)
  else
    match objGet body "email", objGet body "password" with
    | some ev, some pv =>
        (match getByEmailV us ev with
         | some _ => (⟨409, .obj [("error", .str "Email already in use")]⟩, us)
         | none =>
             match pv with
             | .str ps =>
                 let created : JValue :=
                   .obj [("id", .str genId),
                         ("name", nullishGetD (objGet body "name") .null),
                         ("email", ev),
                         ("password", .str (hash ps)),
                         ("role", nullishGetD (objGet body "role") (.str "user")),
                         ("createdAt", .str now), ("updatedAt", .str now)]
                 (⟨201, sanitizeUser created⟩, us ++ [created])
             | _ => (⟨500, .obj [("error", .str hashTypeErrorMsg)]⟩, us))
    | _, _ =>
        -- unreachable: the truthiness guard above already answered 400
        (⟨400, .obj [("error", .str "Email and password are required")]⟩, us)

/-- Memory-store `updateById`: merge the updates over the stored record and
stamp `updatedAt`. -/
def updateById (now : String) (us : List JValue) (tid : JValue)
    (up : List (String × JValue)) : Option JValue × List JValue :=
  let hits := fun (u : JValue) =>
    match objGet u "id" with
    | some iv => strictEqPrim iv tid
    | none => false
  match us.find? hits with
  | none => (none, us)
  | some ex =>
      let merged : JValue := .obj (setField (mergeFields (objFields ex) up) "updatedAt" (.str now))
      (some merged, us.map (fun u => if hits u then merged else u))

/-- PUT /api/users: identify the user by id or email, re-hash a truthy
password in the updates, merge, and respond with the sanitized result. -/
def putUsers (hash : String → String) (now : String) (us : List JValue)
    (idP emailP : Option String) (updates : JValue) : Http × List JValue :=
  match normParam idP, normParam emailP with
  | none, none =>
      (⟨400, .obj [("error", .str "id or email query parameter is required")]⟩, us)
  | idN, emN =>
      let existing := match idN with
        | some id => getById us id
        | none => getByEmailV us (.str (emN.getD ""))
      match existing with
      | none => (⟨404, .obj [("error", .str "User not found")]⟩, us)
      | some ex =>
          let upFields0 := objFields updates
          let hashed : Except Unit (List (String × JValue)) :=
            match objGet updates "password" with
            | some pv =>
                if truthy pv then
                  match pv with
                  | .str s => .ok (setField upFields0 "password" (.str (hash s)))
                  | _ => .error ()
                else .ok upFields0
            | none => .ok upFields0
          match hashed with
          | .error _ => (⟨500, .obj [("error", .str hashTypeErrorMsg)]⟩, us)
          | .ok upFields1 =>
              let upFields := setField upFields1 "updatedAt" (.str now)
              let targetId : JValue :=
                nullishGetD (objGet ex "id")
                  (match idN with | some id => .str id | none => .null)
              if truthy targetId = false then
                (⟨500, .obj [("error", .str "Unable to determine user id")]⟩, us)
              else
                match updateById now us targetId upFields with
                | (some rec, us') => (⟨200, sanitizeUser rec⟩, us')
                | (none, us') => (⟨200, sanitizeUser .null⟩, us')

/-- Memory-store `deleteById`. -/
def deleteById (us : List JValue) (tid : JValue) : Option JValue × List JValue :=
  let hits := fun (u : JValue) =>
    match objGet u "id" with
    | some iv => strictEqPrim iv tid
    | none => false
  match us.find? hits with
  | none => (none, us)
  | some ex => (some ex, us.filter (fun u => hits u = false))

/-- DELETE /api/users: identify the user by id or email, delete it and
respond `{ success, user }` with the sanitized record. -/
def deleteUsers (us : List JValue) (idP emailP : Option String) : Http × List JValue :=
  match normParam idP, normParam emailP with
  | none, none =>
      (⟨400, .obj [("error", .str "id or email query parameter is required")]⟩, us)
  | idN, emN =>
      let existing := match idN with
        | some id => getById us id
        | none => getByEmailV us (.str (emN.getD ""))
      match existing with
      | none => (⟨404, .obj [("error", .str "User not found")]⟩, us)
      | some ex =>
          let targetId : JValue :=
            nullishGetD (objGet ex "id")
              (match idN with | some id => .str id | none => .null)
          if truthy targetId = false then
            (⟨500, .obj [("error", .str "Unable to determine user id")]⟩, us)
          else
            match deleteById us targetId with
            | (del, us') =>
                (⟨200, .obj [("success", .bool true),
                             ("user", sanitizeUser (del.getD .null))]⟩, us')

/-! ## Catalog query service (GET of the products route, file-backed path)

The products route's fallback pipeline: filter by search and category, sort
in memory with the route's comparator, then slice one page.  (The Prisma
branch pushes the same query down to the database and is not re-modelled.) -/

/-- `Array.prototype.join`'s stringification of one element (nested arrays
and numeric strings do not occur in any claim; nested-array joining is
simplified to the empty string). -/
def jShow : JValue → String
  | .str t => t
  | .num (.fin q) => toString q
  | .num .nan => "NaN"
  | .num .inf => "Infinity"
  | .num .ninf => "-Infinity"
  | .bool b => if b then "true" else "false"
  | .null => ""
  | .arr _ => ""
  | .obj _ => "[object Object]"

/-- `Number(v)` coercion of a JSON value.  Numeric-string parsing is not
modelled (no claim sorts on numeric strings): a nonempty non-blank string
coerces to NaN, as do objects and multi-element arrays. -/
def jNumOf : JValue → JNum
  | .num n => n
  | .null => .fin 0
  | .bool b => .fin (if b then 1 else 0)
  | .str s => if strTrim s = "" then .fin 0 else .nan
  | .arr [] => .fin 0
  | .arr _ => .nan
  | .obj _ => .nan

/-- Truthy-string field containing the (lower-cased) search term. -/
def strIncludesLower (v : Option JValue) (s : String) : Bool :=
  match v with
  | some (.str t) => strContains (strToLower t) s
  | _ => false

/-- The search predicate: case-insensitive substring match on name,
description, or category (joined when it is an array). -/
def matchesSearch (sLower : String) (p : JValue) : Bool :=
  strIncludesLower (objGet p "name") sLower
  || strIncludesLower (objGet p "description") sLower
  || (match objGet p "category" with
      | some (.str t) => strContains (strToLower t) sLower
      | some (.arr xs) =>
          strContains (strToLower (String.intercalate " " (xs.map jShow))) sLower
      | _ => false)

/-- The category predicate: `includes` on an array category, strict
equality otherwise. -/
def matchesCategory (c : String) (p : JValue) : Bool :=
  match objGet p "category" with
  | some (.arr xs) => xs.any (fun v => match v with | .str t => t = c | _ => false)
  | some v => strictEqPrim v (.str c)
  | none => false

/-- The two catalog filters (search applied when the term is nonempty, then
category when given). -/
def filterProducts (ps : List JValue) (search : String) (category : Option String) :
    List JValue :=
  let afterSearch := if search = "" then ps else ps.filter (matchesSearch (strToLower search))
  match category with
  | some c => afterSearch.filter (matchesCategory c)
  | none => afterSearch

/-- Ordering as a comparator integer. -/
def ordToInt : Ordering → Int
  | .lt => -1
  | .eq => 0
  | .gt => 1

/-- Sign of `a - b` as the sort comparator result; a NaN comparator result
is treated as 0 by `Array.prototype.sort`. -/
def numCmpSign (a b : JNum) : Int :=
  match JNum.jsub a b with
  | .nan => 0
  | .inf => 1
  | .ninf => -1
  | .fin q => if q < 0 then -1 else if 0 < q then 1 else 0

/-- The catalog sort comparator.  A record lacking the sort key returns -1
(sorts first) in ascending order and +1 in descending; string values use
`localeCompare` (modelled as code-point comparison); the `instanceof Date`
branch is dead for parsed-JSON records; everything else compares as
numbers. -/
def cmpProducts (sortKey : String) (asc : Bool) (a b : JValue) : Int :=
  match objGet a sortKey, objGet b sortKey with
  | none, none => 0
  | none, some _ => if asc then -1 else 1
  | some _, none => if asc then 1 else -1
  | some av, some bv =>
      match av, bv with
      | .str s1, .str s2 =>
          if asc then ordToInt (compare s1 s2) else ordToInt (compare s2 s1)
      | _, _ =>
          if asc then numCmpSign (jNumOf av) (jNumOf bv)
          else numCmpSign (jNumOf bv) (jNumOf av)

/-- Stable insertion into a sorted list (an element is placed before the
first element it does not sort strictly after). -/
def insertSorted (cmp : α → α → Int) (x : α) : List α → List α
  | [] => [x]
  | y :: ys => if cmp x y ≤ 0 then x :: y :: ys else y :: insertSorted cmp x ys

/-- A stable comparator sort (`Array.prototype.sort` is stable per
ES2019). -/
def sortByCmp (cmp : α → α → Int) : List α → List α
  | [] => []
  | x :: xs => insertSorted cmp x (sortByCmp cmp xs)

/-- Truncation toward zero (`ToIntegerOrInfinity` on a finite value). -/
def ratTrunc (q : ℚ) : ℤ := if q < 0 then ⌈q⌉ else ⌊q⌋

/-- Resolution of a JS slice index against a length: NaN to 0, infinities
clamped, negative values relative to the end. -/
def resolveIdx (len : Nat) : JNum → Nat
  | .nan => 0
  | .ninf => 0
  | .inf => len
  | .fin q =>
      let i := ratTrunc q
      if i < 0 then (max ((len : ℤ) + i) 0).toNat else min i.toNat len

/-- `Array.prototype.slice(s, e)`. -/
def jsSlice (l : List α) (s e : JNum) : List α :=
  let a := resolveIdx l.length s
  let b := resolveIdx l.length e
  (l.drop a).take (b - a)

/-- GET of the products route (file-backed path).  `search` is the resolved
`get("q") || get("search") || ""`; `pageP`/`limitP` are the query values
after `Number(...)` coercion (`none` when the parameter is absent or
empty, in which case the source's `|| default` applies before coercion);
`sortP`/`orderP` are the raw strings. -/
def catalogGet (products : List JValue) (search : String) (category : Option String)
    (pageP limitP : Option JNum) (sortP orderP : Option String) : Http :=
  let page := JNum.jmax (.fin 1) (pageP.getD (.fin 1))
  let limit := JNum.jmin (.fin 100) (JNum.jmax (.fin 1) (limitP.getD (.fin 20)))
  let sortKey := (normParam sortP).getD "createdAt"
  let order := strToLower ((normParam orderP).getD "desc")
  let filtered := filterProducts products search (normParam category)
  let sorted := sortByCmp (cmpProducts sortKey (order = "asc")) filtered
  let total := filtered.length
  let start := JNum.jmul (JNum.jsub page (.fin 1)) limit
  let paged := jsSlice sorted start (JNum.jadd start limit)
  ⟨200, .obj [("data", .arr paged),
              ("meta", .obj [("total", .num (.fin (total : ℚ))),
                             ("page", .num page), ("limit", .num limit)])]⟩

/-! ## Product creation (POST of the products route) -/

/-- JS `\w`: ASCII letters, digits, underscore. -/
def isWordChar (c : Char) : Bool := c.isAlphanum || c = '_'

/-- `.replace(/\s+/g, "-")`: each maximal whitespace run becomes one
hyphen (`prev` tracks whether the previous character was whitespace). -/
def replaceWsRuns (prev : Bool) : List Char → List Char
  | [] => []
  | c :: cs =>
      if jsWs c then (if prev then [] else ['-']) ++ replaceWsRuns true cs
      else c :: replaceWsRuns false cs

/-- `.replace(/\-\-+/g, "-")`: hyphen runs of length at least two collapse
to one (runs of one are untouched, so every run ends up a single hyphen). -/
def collapseHyphenRuns (prev : Bool) : List Char → List Char
  | [] => []
  | c :: cs =>
      if c = '-' then (if prev then [] else ['-']) ++ collapseHyphenRuns true cs
      else c :: collapseHyphenRuns false cs

/-- `slugify` from the products route: trim, lower-case, whitespace runs to
hyphens, strip non-word non-hyphen characters, collapse repeated hyphens.
(Lean's `String.trim`/`toLower` coincide with JS on ASCII input.) -/
def slugify (s : String) : String :=
  String.mk (collapseHyphenRuns false
    ((replaceWsRuns false (strToLower (strTrim s)).toList).filter
      (fun c => isWordChar c || c = '-')))

/-- The validator's normalized name: a truthy string whose trim is
nonempty, trimmed. -/
def prodName (body : JValue) : Option String :=
  match objGet body "name" with
  | some (.str s) => if strTrim s = "" then none else some (strTrim s)
  | _ => none

/-- The validator's normalized price: present, non-null, and
`Number(price)` not NaN. -/
def prodPriceV (body : JValue) : Option JNum :=
  match objGet body "price" with
  | none => none
  | some .null => none
  | some v => if jNumOf v = .nan then none else some (jNumOf v)

/-- The validator's optional description (kept only when a truthy string). -/
def prodDescriptionV (body : JValue) : Option String :=
  match objGet body "description" with
  | some (.str s) => if s = "" then none else some (strTrim s)
  | _ => none

/-- The validator's optional image. -/
def prodImageV (body : JValue) : Option String :=
  match objGet body "image" with
  | some (.str s) => if s = "" then none else some (strTrim s)
  | _ => none

/-- The validator's optional category. -/
def prodCategoryV (body : JValue) : Option String :=
  match objGet body "category" with
  | some (.str s) => if s = "" then none else some (strTrim s)
  | _ => none

/-- The validator's optional slug (slugified when a truthy string). -/
def prodSlugV (body : JValue) : Option String :=
  match objGet body "slug" with
  | some (.str s) => if s = "" then none else some (slugify s)
  | _ => none

/-- A present stock value that is NaN or non-finite is an error. -/
def prodStockBad (body : JValue) : Bool :=
  match objGet body "stock" with
  | none => false
  | some v => jNumOf v = .nan || (jNumOf v).isFinite = false

/-- The validator's optional stock value. -/
def prodStockV (body : JValue) : Option JNum :=
  match objGet body "stock" with
  | none => none
  | some v =>
      if jNumOf v = .nan || (jNumOf v).isFinite = false then none else some (jNumOf v)

/-- The errors the product validator accumulates, in push order. -/
def productErrors (body : JValue) : List String :=
  (if (prodName body).isNone then ["name is required and must be a non-empty string"] else [])
  ++ (if (prodPriceV body).isNone then ["price is required and must be a number"] else [])
  ++ (if prodStockBad body then ["stock must be a number"] else [])

/-- The normalized product payload (`value` in the source). -/
structure ProductPayloadValue where
  name : Option String := none
  price : Option JNum := none
  description : Option String := none
  image : Option String := none
  stock : Option JNum := none
  category : Option String := none
  slug : Option String := none
deriving Repr

/-- `validateProductPayload`: a non-object payload is invalid; otherwise
all accumulated errors are reported together, and an error-free payload
yields the normalized value. -/
def validateProductPayload (body : JValue) : Except (List String) ProductPayloadValue :=
  if isObjectLike body = false then .error ["Invalid JSON payload"]
  else if (productErrors body).isEmpty then
    .ok { name := prodName body, price := prodPriceV body,
          description := prodDescriptionV body, image := prodImageV body,
          stock := prodStockV body, category := prodCategoryV body,
          slug := prodSlugV body }
  else .error (productErrors body)

/-- The product record POST builds: omitted fields get the fixed defaults
(`description ?? ""`, `image ?? null`, `stock ?? 0`,
`category ?? "uncategorized"`, `slug ?? slugify(name)`). -/
def buildNewProduct (genId now : String) (v : ProductPayloadValue) : JValue :=
  .obj [("id", .str genId),
        ("name", .str (v.name.getD "")),
        ("description", .str (v.description.getD "")),
        ("price", .num (v.price.getD (.fin 0))),
        ("image", match v.image with | some s => .str s | none => .null),
        ("stock", .num (v.stock.getD (.fin 0))),
        ("category", .str (v.category.getD "uncategorized")),
        ("slug", .str (v.slug.getD (slugify (v.name.getD "")))),
        ("createdAt", .str now), ("updatedAt", .str now)]

/-- POST of the products route: validate, build the product with defaults,
store it (the file path unshifts it; the Prisma path inserts the same
fields) and answer 201 with it. -/
def postProducts (genId now : String) (body : JValue) (store : List JValue) :
    Http × List JValue :=
  match validateProductPayload body with
  | .error errs => (⟨400, .obj [("errors", .arr (errs.map JValue.str))]⟩, store)
  | .ok v =>
      let newProduct := buildNewProduct genId now v
      (⟨201, .obj [("data", newProduct)]⟩, newProduct :: store)

/-! ## Derived definitions used by the theorems -/

/-- Modelled from the spec's wording (for comparison with the source's
check): a valid item quantity is a number that is finite, strictly
positive, and integral. -/
def quantitySpecValid : Option JValue → Bool
  | some (.num (.fin q)) => decide (0 < q) && decide (q.den = 1)
  | _ => false

/-- One item passes the pre-transaction loop: its product is in the
fetched snapshot and, when the snapshot stock is a number, the requested
quantity is within it. -/
def itemChecksOk (lookup : String → Option ProductR) (it : OrderItemRequest) : Bool :=
  match lookup it.productId with
  | none => false
  | some p =>
      match p.stock with
      | some s => decide (it.quantity ≤ s)
      | none => true

/-- One item requests more than its product's tracked stock. -/
def stockExceeded (lookup : String → Option ProductR) (it : OrderItemRequest) : Bool :=
  match lookup it.productId with
  | none => false
  | some p =>
      match p.stock with
      | some s => decide (s < it.quantity)
      | none => false

/-- The total quantity the items order of one product id. -/
def totalQty (items : List OrderItemRequest) (pid : String) : ℚ :=
  ((items.filter (fun it => it.productId = pid)).map OrderItemRequest.quantity).sum

/-- The per-item effect of the transaction loop on the product rows. -/
def stepProducts (lookup : String → Option ProductR) (it : OrderItemRequest)
    (ps : List ProductR) : List ProductR :=
  match lookup it.productId with
  | some prod =>
      if prod.stock.isSome then decrementStock it.productId it.quantity ps else ps
  | none => ps

/-- The per-item effect of the transaction loop on one product row (the
pointwise form of `stepProducts`). -/
def stepF (lookup : String → Option ProductR) (it : OrderItemRequest)
    (p : ProductR) : ProductR :=
  match lookup it.productId with
  | some prod =>
      if prod.stock.isSome ∧ p.id = it.productId
      then { p with stock := p.stock.map (· - it.quantity) } else p
  | none => p

/-- The cumulative effect of an order's items on one product row: a
tracked stock drops by the total ordered quantity of that product (zero
when the product is not referenced); an untracked stock is untouched. -/
def decAllProducts (items : List OrderItemRequest) (p : ProductR) : ProductR :=
  match p.stock with
  | some s => { p with stock := some (s - totalQty items p.id) }
  | none => p

/-- No top-level "password" key. -/
def topNoPassword : JValue → Bool
  | .obj fs => fs.all (fun kv => ¬(kv.1 = "password"))
  | _ => true

/-- Every user object at the top level of a response body (a single object
or an array of them) is free of a "password" key. -/
def respClean : JValue → Bool
  | .arr xs => xs.all topNoPassword
  | v => topNoPassword v

/-- A store with one user and one product with catalog price 20 and
tracked stock 5. -/
def exampleStore : Store :=
  { users := [{ id := "u1", name := "Alice", email := "alice@example.com",
                password := "5e884898da280471" }],
    products := [{ id := "p1", name := "Widget", price := some 20, stock := some 5 }],
    orders := [], orderItems := [], nextOrderId := 1 }

/-- A payload listing the same tracked product in two items, 3 + 3 against
stock 5. -/
def doubleItemPayload : JValue :=
  .obj [("userId", .str "u1"),
        ("items", .arr [.obj [("productId", .str "p1"), ("quantity", .num (.fin 3))],
                        .obj [("productId", .str "p1"), ("quantity", .num (.fin 3))]]),
        ("total", .num (.fin 120))]

/-- The spec's stock-exceeded example: quantity 10 against stock 5. -/
def exceedPayload : JValue :=
  .obj [("userId", .str "u1"),
        ("items", .arr [.obj [("productId", .str "p1"), ("quantity", .num (.fin 10))]]),
        ("total", .num (.fin 200))]

/-- The request `exceedPayload` validates to. -/
def exceedRequest : CreateOrderRequest :=
  { userId := "u1", items := [{ productId := "p1", quantity := 10, price := none }],
    shipping := none, paymentMethod := none, total := 200 }

/-- A valid order payload: quantity 2 of p1, total 40. -/
def okPayload : JValue :=
  .obj [("userId", .str "u1"),
        ("items", .arr [.obj [("productId", .str "p1"), ("quantity", .num (.fin 2))]]),
        ("total", .num (.fin 40))]

/-- The request `okPayload` validates to. -/
def okRequest : CreateOrderRequest :=
  { userId := "u1", items := [{ productId := "p1", quantity := 2, price := none }],
    shipping := none, paymentMethod := none, total := 40 }

/-- A catalog record lacking the "price" key. -/
def productNoPrice : JValue := .obj [("name", .str "L")]

/-- A catalog record carrying the "price" key. -/
def productWithPrice : JValue := .obj [("name", .str "H"), ("price", .num (.fin 5))]

/-! ## Helper lemmas -/

theorem charsStartWith_append (pat rest : List Char) :
    charsStartWith pat (pat ++ rest) = true := by
  induction pat with
  | nil => rfl
  | cons p ps ih => simp [charsStartWith, ih]

theorem charsContain_of_start {pat l : List Char} (h : charsStartWith pat l = true) :
    charsContain pat l = true := by
  cases l with
  | nil => cases pat with
    | nil => rfl
    | cons p ps => simp [charsStartWith] at h
  | cons c cs => simp [charsContain, h]

theorem charsContain_parts (pre pat post : List Char) :
    charsContain pat (pre ++ (pat ++ post)) = true := by
  induction pre with
  | nil => exact charsContain_of_start (charsStartWith_append pat post)
  | cons c cs ih => simp [charsContain, ih]

/-- A string built as `pre ++ b ++ post` contains `b`. -/
theorem strContains_parts (pre b post : String) :
    strContains (pre ++ b ++ post) b = true := by
  unfold strContains
  have h : (pre ++ b ++ post).toList = pre.toList ++ (b.toList ++ post.toList) := by
    simp [String.toList, String.data_append]
  rw [h]
  exact charsContain_parts _ _ _

/-- A finite value equals its floor exactly when it is an integer
(denominator one). -/
theorem ratFloor_eq_iff (q : ℚ) : ((⌊q⌋ : ℤ) : ℚ) = q ↔ q.den = 1 := by
  constructor
  · intro h
    rw [← h]
    exact Rat.den_intCast _
  · intro h
    have hn : (q.num : ℚ) = q := (Rat.den_eq_one_iff q).mp h
    rw [← hn, Int.floor_intCast]

/-! ## Claim C4: quantity validation -/

/-- Claim C4: for an item whose productId and optional price fields are
well-formed, order-payload validation accepts the quantity exactly when it
is a number that is finite, strictly positive, and integral (rejecting
zero, negative, fractional and non-finite values, NaN included), and a bad
quantity is reported with the message naming the item's index. -/
theorem claim_C4 (idx : Nat) (it : JValue) (pid : String)
    (hpid : objGet it "productId" = some (.str pid)) (hpid' : ¬ pid = "")
    (hprice : objGet it "price" = none ∨ ∃ p : ℚ, objGet it "price" = some (.num (.fin p))) :
    ((validateItem idx it).isOk = true ↔ quantitySpecValid (objGet it "quantity") = true)
    ∧ (quantitySpecValid (objGet it "quantity") = false →
        validateItem idx it = .error (qtyMsg idx))
    ∧ strContains (qtyMsg idx) (toString idx) = true := by
  have hobj : isObjectLike it = true := by
    cases it <;> simp_all [objGet, isObjectLike]
  have hcontain : strContains (qtyMsg idx) (toString idx) = true := by
    unfold qtyMsg
    exact strContains_parts _ _ _
  refine ⟨?_, ?_, hcontain⟩ <;>
  · cases hq : objGet it "quantity" with
    | none => simp [validateItem, Except.isOk, Except.toBool, hobj, hpid, hpid', hq, quantitySpecValid]
    | some v =>
      cases v with
      | num n =>
        cases n with
        | fin q =>
          by_cases hbad : q ≤ 0 ∨ ¬((⌊q⌋ : ℚ) = q)
          · have hspec : quantitySpecValid (some (.num (.fin q))) = false := by
              rcases hbad with h1 | h1
              · simp [quantitySpecValid, not_lt.mpr h1]
              · have : ¬ q.den = 1 := fun hden => h1 ((ratFloor_eq_iff q).mpr hden)
                simp [quantitySpecValid, this]
            simp [validateItem, Except.isOk, Except.toBool, hobj, hpid, hpid', hq, hbad, hspec]
          · push_neg at hbad
            obtain ⟨h1, h2⟩ := hbad
            have hspec : quantitySpecValid (some (.num (.fin q))) = true := by
              simp [quantitySpecValid, h1, (ratFloor_eq_iff q).mp h2]
            have hbad' : ¬(q ≤ 0 ∨ ¬((⌊q⌋ : ℚ) = q)) := by
              push_neg
              exact ⟨h1, h2⟩
            rcases hprice with hp | ⟨p, hp⟩ <;>
              simp [validateItem, Except.isOk, Except.toBool, hobj, hpid, hpid', hq, hbad', hspec, hp]
        | nan => simp [validateItem, Except.isOk, Except.toBool, hobj, hpid, hpid', hq, quantitySpecValid]
        | inf => simp [validateItem, Except.isOk, Except.toBool, hobj, hpid, hpid', hq, quantitySpecValid]
        | ninf => simp [validateItem, Except.isOk, Except.toBool, hobj, hpid, hpid', hq, quantitySpecValid]
      | null => simp [validateItem, Except.isOk, Except.toBool, hobj, hpid, hpid', hq, quantitySpecValid]
      | bool b => simp [validateItem, Except.isOk, Except.toBool, hobj, hpid, hpid', hq, quantitySpecValid]
      | str s => simp [validateItem, Except.isOk, Except.toBool, hobj, hpid, hpid', hq, quantitySpecValid]
      | arr xs => simp [validateItem, Except.isOk, Except.toBool, hobj, hpid, hpid', hq, quantitySpecValid]
      | obj fs => simp [validateItem, Except.isOk, Except.toBool, hobj, hpid, hpid', hq, quantitySpecValid]

/-- Witness for C4 at a concrete item: productId "p9", quantity 3 valid. -/
theorem claim_C4_witness :
    ((validateItem 1 (.obj [("productId", .str "p9"), ("quantity", .num (.fin 3))])).isOk = true
      ↔ quantitySpecValid (objGet (.obj [("productId", .str "p9"),
            ("quantity", .num (.fin 3))]) "quantity") = true)
    ∧ (quantitySpecValid (objGet (.obj [("productId", .str "p9"),
          ("quantity", .num (.fin 3))]) "quantity") = false →
        validateItem 1 (.obj [("productId", .str "p9"), ("quantity", .num (.fin 3))])
          = .error (qtyMsg 1))
    ∧ strContains (qtyMsg 1) (toString 1) = true :=
  claim_C4 1 (.obj [("productId", .str "p9"), ("quantity", .num (.fin 3))]) "p9"
    rfl (by decide) (Or.inl rfl)

/-! ## Claim C5: validation failures and response status -/

/-- Counterexample to claim C5: the non-object payload `5` fails
validation, but POST /orders answers 500, not 400 — the catch block only
maps messages containing "missing" or "invalid" to 400, and "Payload must
be a JSON object." contains neither. -/
theorem claim_C5_counterexample :
    validateOrderPayload (.num (.fin 5)) = .error "Payload must be a JSON object."
    ∧ postOrders ⟨[], [], [], [], 1⟩ (.num (.fin 5))
        = (⟨500, errorBody "Payload must be a JSON object."⟩, ⟨[], [], [], [], 1⟩) :=
  ⟨rfl, rfl⟩

/-- Claim C5 as amended: every request body that fails validation gets the
`{success:false, error:message}` envelope and leaves the store unchanged,
but the status is 400 only when the lower-cased message contains "missing"
or "invalid" (the userId, item-field and total messages) and is 500 for
the other validator failures (non-object payload, empty or non-array
items, non-object item). -/
theorem claim_C5 (st : Store) (payload : JValue) (msg : String)
    (h : validateOrderPayload payload = .error msg) :
    postOrders st payload = (⟨errStatus msg, errorBody msg⟩, st)
    ∧ (errStatus msg = 400 ∨ errStatus msg = 500)
    ∧ (errStatus msg = 400 ↔
        (strContains (strToLower msg) "missing" || strContains (strToLower msg) "invalid") = true) := by
  refine ⟨?_, ?_, ?_⟩
  · simp [postOrders, h]
  · unfold errStatus
    split <;> simp
  · unfold errStatus
    by_cases hmsg : msg = ""
    · subst hmsg
      simp [strContains, charsContain, charsStartWith]
    · by_cases hm : strContains (strToLower msg) "missing" = true <;>
        by_cases hi : strContains (strToLower msg) "invalid" = true <;>
        simp [hmsg, hm, hi]

/-- Witness for C5 at a concrete failing body: `{}` (missing userId) gets
status 400. -/
theorem claim_C5_witness :
    postOrders ⟨[], [], [], [], 1⟩ (.obj [])
        = (⟨errStatus "Missing or invalid 'userId'.",
            errorBody "Missing or invalid 'userId'."⟩, ⟨[], [], [], [], 1⟩)
    ∧ (errStatus "Missing or invalid 'userId'." = 400
        ∨ errStatus "Missing or invalid 'userId'." = 500)
    ∧ (errStatus "Missing or invalid 'userId'." = 400 ↔
        (strContains (strToLower "Missing or invalid 'userId'.") "missing"
          || strContains (strToLower "Missing or invalid 'userId'.") "invalid") = true) :=
  claim_C5 ⟨[], [], [], [], 1⟩ (.obj []) "Missing or invalid 'userId'." rfl

/-! ## Claim C6: duplicated product id across items -/

/-- Claim C6: the pre-transaction stock check tests each item separately
against the same fetched stock, so a payload listing p1 twice with
quantities 3 and 3 against stock 5 passes every check (each 3 ≤ 5 though
3 + 3 > 5), the order is created (201, one order row), and the decrement
loop drives the stock to -1, below zero. -/
theorem claim_C6 :
    ((3 : ℚ) ≤ 5 ∧ ¬((3 : ℚ) + 3 ≤ 5))
    ∧ (postOrders exampleStore doubleItemPayload).1.status = 201
    ∧ (postOrders exampleStore doubleItemPayload).2.orders
        = [{ id := 1, userId := "u1", total := 120, status := "pending",
             paymentMethod := none, shipping := none }]
    ∧ (postOrders exampleStore doubleItemPayload).2.orderItems
        = [{ orderId := 1, productId := "p1", quantity := 3, price := 20 },
           { orderId := 1, productId := "p1", quantity := 3, price := 20 }]
    ∧ (postOrders exampleStore doubleItemPayload).2.products
        = [{ id := "p1", name := "Widget", price := some 20, stock := some (-1) }]
    ∧ ((-1 : ℚ) < 0) := by
  refine ⟨⟨by norm_num, by norm_num⟩, rfl, ?_, by decide, ?_, by norm_num⟩
  · show [mkOrder exampleStore
      { userId := "u1",
        items := [{ productId := "p1", quantity := 3, price := none },
                  { productId := "p1", quantity := 3, price := none }],
        shipping := none, paymentMethod := none, total := 120 }] = _
    rfl
  · have h : (postOrders exampleStore doubleItemPayload).2.products
        = [{ id := "p1", name := "Widget", price := some 20,
             stock := some ((5 : ℚ) - 3 - 3) }] := rfl
    rw [h]
    norm_num

/-! ## Claim C9: sort tie-break for records lacking the key -/

/-- Counterexample to claim C9: in ascending order the record lacking the
sort key compares as -1 against (sorts before, not after) a record having
it, and in descending order as +1 (sorts after, not before); sorting shows
the same placement. -/
theorem claim_C9_counterexample :
    objGet productNoPrice "price" = none
    ∧ (objGet productWithPrice "price").isSome = true
    ∧ cmpProducts "price" true productNoPrice productWithPrice = -1
    ∧ sortByCmp (cmpProducts "price" true) [productWithPrice, productNoPrice]
        = [productNoPrice, productWithPrice]
    ∧ cmpProducts "price" false productNoPrice productWithPrice = 1
    ∧ sortByCmp (cmpProducts "price" false) [productNoPrice, productWithPrice]
        = [productWithPrice, productNoPrice] :=
  ⟨rfl, rfl, rfl, rfl, rfl, rfl⟩

/-- Claim C9 as amended: for every pair where exactly one record lacks the
sort key, the lacking record sorts before the one having it when the order
is ascending and after it when descending (comparator -1 and +1
respectively, and correspondingly for two-element sorts). -/
theorem claim_C9 (sortKey : String) (a b : JValue)
    (ha : objGet a sortKey = none) (hb : (objGet b sortKey).isSome = true) :
    cmpProducts sortKey true a b = -1 ∧ cmpProducts sortKey true b a = 1
    ∧ cmpProducts sortKey false a b = 1 ∧ cmpProducts sortKey false b a = -1
    ∧ sortByCmp (cmpProducts sortKey true) [a, b] = [a, b]
    ∧ sortByCmp (cmpProducts sortKey true) [b, a] = [a, b]
    ∧ sortByCmp (cmpProducts sortKey false) [a, b] = [b, a]
    ∧ sortByCmp (cmpProducts sortKey false) [b, a] = [b, a] := by
  obtain ⟨v, hv⟩ := Option.isSome_iff_exists.mp hb
  have h1 : cmpProducts sortKey true a b = -1 := by simp [cmpProducts, ha, hv]
  have h2 : cmpProducts sortKey true b a = 1 := by simp [cmpProducts, ha, hv]
  have h3 : cmpProducts sortKey false a b = 1 := by simp [cmpProducts, ha, hv]
  have h4 : cmpProducts sortKey false b a = -1 := by simp [cmpProducts, ha, hv]
  refine ⟨h1, h2, h3, h4, ?_, ?_, ?_, ?_⟩ <;>
    simp [sortByCmp, insertSorted, h1, h2, h3, h4]

/-- Witness for C9 at the concrete pair of catalog records. -/
theorem claim_C9_witness :
    cmpProducts "price" true productNoPrice productWithPrice = -1
    ∧ cmpProducts "price" true productWithPrice productNoPrice = 1
    ∧ cmpProducts "price" false productNoPrice productWithPrice = 1
    ∧ cmpProducts "price" false productWithPrice productNoPrice = -1
    ∧ sortByCmp (cmpProducts "price" true) [productNoPrice, productWithPrice]
        = [productNoPrice, productWithPrice]
    ∧ sortByCmp (cmpProducts "price" true) [productWithPrice, productNoPrice]
        = [productNoPrice, productWithPrice]
    ∧ sortByCmp (cmpProducts "price" false) [productNoPrice, productWithPrice]
        = [productWithPrice, productNoPrice]
    ∧ sortByCmp (cmpProducts "price" false) [productWithPrice, productNoPrice]
        = [productWithPrice, productNoPrice] :=
  claim_C9 "price" productNoPrice productWithPrice rfl rfl

/-! ## Claim C10: product-creation defaults -/

/-- Claim C10: for a valid product-creation payload omitting the optional
fields, POST /products answers 201 and stores a product with description
"", image null, category "uncategorized", slug the slugified name and
stock 0 — a numeric (tracked) stock, not untracked inventory. -/
theorem claim_C10 (genId now : String) (body : JValue) (v : ProductPayloadValue)
    (hv : validateProductPayload body = .ok v)
    (hdesc : objGet body "description" = none) (himg : objGet body "image" = none)
    (hcat : objGet body "category" = none) (hslug : objGet body "slug" = none)
    (hstock : objGet body "stock" = none) (store : List JValue) :
    postProducts genId now body store
      = (⟨201, .obj [("data", buildNewProduct genId now v)]⟩,
         buildNewProduct genId now v :: store)
    ∧ buildNewProduct genId now v
        = .obj [("id", .str genId), ("name", .str (v.name.getD "")),
                ("description", .str ""), ("price", .num (v.price.getD (.fin 0))),
                ("image", .null), ("stock", .num (.fin 0)),
                ("category", .str "uncategorized"),
                ("slug", .str (slugify (v.name.getD ""))),
                ("createdAt", .str now), ("updatedAt", .str now)]
    ∧ objGet (buildNewProduct genId now v) "stock" = some (.num (.fin 0)) := by
  have hd : prodDescriptionV body = none := by simp [prodDescriptionV, hdesc]
  have hi : prodImageV body = none := by simp [prodImageV, himg]
  have hc : prodCategoryV body = none := by simp [prodCategoryV, hcat]
  have hs : prodSlugV body = none := by simp [prodSlugV, hslug]
  have hst : prodStockV body = none := by simp [prodStockV, hstock]
  have hv' : v = { name := prodName body, price := prodPriceV body,
                   description := prodDescriptionV body, image := prodImageV body,
                   stock := prodStockV body, category := prodCategoryV body,
                   slug := prodSlugV body } := by
    unfold validateProductPayload at hv
    split at hv
    · exact absurd hv (by simp)
    · split at hv
      · exact (Except.ok.inj hv).symm
      · exact absurd hv (by simp)
  refine ⟨?_, ?_, ?_⟩
  · simp [postProducts, hv]
  · rw [hv']
    simp [buildNewProduct, hd, hi, hc, hs, hst]
  · rw [hv']
    simp [buildNewProduct, hd, hi, hc, hs, hst, objGet, lookupField]

/-- Witness for C10: name "Red Shoe", price 10, nothing else. -/
theorem claim_C10_witness :
    postProducts "id1" "t0"
        (.obj [("name", .str "Red Shoe"), ("price", .num (.fin 10))]) []
      = (⟨201, .obj [("data", buildNewProduct "id1" "t0"
            { name := some "Red Shoe", price := some (.fin 10) })]⟩,
         [buildNewProduct "id1" "t0" { name := some "Red Shoe", price := some (.fin 10) }])
    ∧ buildNewProduct "id1" "t0" { name := some "Red Shoe", price := some (.fin 10) }
        = .obj [("id", .str "id1"),
                ("name", .str (Option.getD (some "Red Shoe") "")),
                ("description", .str ""),
                ("price", .num (Option.getD (some (.fin 10)) (.fin 0))),
                ("image", .null), ("stock", .num (.fin 0)),
                ("category", .str "uncategorized"),
                ("slug", .str (slugify (Option.getD (some "Red Shoe") ""))),
                ("createdAt", .str "t0"), ("updatedAt", .str "t0")]
    ∧ objGet (buildNewProduct "id1" "t0"
          { name := some "Red Shoe", price := some (.fin 10) }) "stock"
        = some (.num (.fin 0)) :=
  claim_C10 "id1" "t0" (.obj [("name", .str "Red Shoe"), ("price", .num (.fin 10))])
    { name := some "Red Shoe", price := some (.fin 10) } rfl rfl rfl rfl rfl rfl []

/-! ## Lemmas about the order workflow -/

theorem mapGet_mem : ∀ {l : List ProductR} {pid : String} {p : ProductR},
    mapGet l pid = some p → p ∈ l ∧ p.id = pid := by
  intro l
  induction l with
  | nil => intro pid p h; simp [mapGet] at h
  | cons q rest ih =>
      intro pid p h
      unfold mapGet at h
      cases hrest : mapGet rest pid with
      | some r =>
          rw [hrest] at h
          obtain ⟨hm, hid⟩ := ih hrest
          cases h
          exact ⟨List.mem_cons_of_mem _ hm, hid⟩
      | none =>
          rw [hrest] at h
          by_cases hq : q.id = pid
          · simp only [hq, if_pos rfl] at h
            cases h
            exact ⟨List.mem_cons_self _ _, hq⟩
          · simp [hq] at h

theorem mapGet_eq_none {pid : String} : ∀ {l : List ProductR},
    (∀ p ∈ l, ¬ p.id = pid) → mapGet l pid = none := by
  intro l
  induction l with
  | nil => intro _; rfl
  | cons q rest ih =>
      intro h
      unfold mapGet
      rw [ih (fun p hp => h p (List.mem_cons_of_mem _ hp))]
      simp [h q (List.mem_cons_self _ _)]

theorem mapGet_self : ∀ {l : List ProductR},
    (l.map ProductR.id).Nodup → ∀ {p : ProductR}, p ∈ l → mapGet l p.id = some p := by
  intro l
  induction l with
  | nil => intro _ p hp; cases hp
  | cons q rest ih =>
      intro hnd p hp
      rw [List.map_cons, List.nodup_cons] at hnd
      obtain ⟨hq, hrest⟩ := hnd
      rcases List.mem_cons.mp hp with rfl | hp'
      · have hnone : mapGet rest p.id = none := by
          apply mapGet_eq_none
          intro r hr hrid
          exact hq (hrid ▸ List.mem_map_of_mem ProductR.id hr)
        unfold mapGet
        rw [hnone]
        simp
      · unfold mapGet
        rw [ih hrest hp']

theorem orderLookup_mem {st : Store} {items : List OrderItemRequest} {pid : String}
    {p : ProductR} (h : orderLookup st items pid = some p) :
    p ∈ st.products ∧ p.id = pid := by
  obtain ⟨hm, hid⟩ := mapGet_mem h
  exact ⟨(List.mem_filter.mp hm).1, hid⟩

theorem orderLookup_self {st : Store} {items : List OrderItemRequest}
    (hnd : (st.products.map ProductR.id).Nodup) {p : ProductR}
    (hp : p ∈ st.products)
    (href : (items.map OrderItemRequest.productId).contains p.id = true) :
    orderLookup st items p.id = some p := by
  unfold orderLookup fetchedProducts
  apply mapGet_self
  · exact hnd.sublist ((st.products.filter_sublist).map ProductR.id)
  · exact List.mem_filter.mpr ⟨hp, href⟩

theorem checkItems_none {lookup : String → Option ProductR} :
    ∀ {items : List OrderItemRequest},
    items.all (itemChecksOk lookup) = true → checkItems lookup items = none := by
  intro items
  induction items with
  | nil => intro _; rfl
  | cons it rest ih =>
      intro h
      rw [List.all_cons, Bool.and_eq_true] at h
      obtain ⟨h1, h2⟩ := h
      unfold itemChecksOk at h1
      cases hl : lookup it.productId with
      | none => rw [hl] at h1; cases h1
      | some p =>
          rw [hl] at h1
          dsimp only at h1
          cases hs : p.stock with
          | none => simp [checkItems, hl, hs, ih h2]
          | some s =>
              rw [hs] at h1
              have hle : ¬ s < it.quantity := not_lt.mpr (of_decide_eq_true h1)
              simp [checkItems, hl, hs, hle, ih h2]

theorem checkItems_insufficient {lookup : String → Option ProductR} :
    ∀ {items : List OrderItemRequest},
    items.all (fun it => (lookup it.productId).isSome) = true →
    items.any (stockExceeded lookup) = true →
    ∃ it ∈ items, ∃ p s, lookup it.productId = some p ∧ p.stock = some s
      ∧ s < it.quantity
      ∧ checkItems lookup items
          = some ⟨400, errorBody (insufficientMsg p.name p.id it.quantity s)⟩ := by
  intro items
  induction items with
  | nil => intro _ h; cases h
  | cons it rest ih =>
      intro hex hany
      rw [List.all_cons, Bool.and_eq_true] at hex
      obtain ⟨hex1, hex2⟩ := hex
      obtain ⟨p, hp⟩ := Option.isSome_iff_exists.mp hex1
      cases hs : p.stock with
      | some s =>
          by_cases hlt : s < it.quantity
          · exact ⟨it, List.mem_cons_self _ _, p, s, hp, hs, hlt,
              by simp [checkItems, hp, hs, hlt]⟩
          · have hany' : rest.any (stockExceeded lookup) = true := by
              rw [List.any_cons, Bool.or_eq_true] at hany
              rcases hany with hhead | htail
              · unfold stockExceeded at hhead
                rw [hp] at hhead
                dsimp only at hhead
                rw [hs] at hhead
                exact absurd (of_decide_eq_true hhead) hlt
              · exact htail
            obtain ⟨it', hm, p', s', h1, h2, h3, h4⟩ := ih hex2 hany'
            exact ⟨it', List.mem_cons_of_mem _ hm, p', s', h1, h2, h3,
              by simp [checkItems, hp, hs, hlt, h4]⟩
      | none =>
          have hany' : rest.any (stockExceeded lookup) = true := by
            rw [List.any_cons, Bool.or_eq_true] at hany
            rcases hany with hhead | htail
            · unfold stockExceeded at hhead
              rw [hp] at hhead
              dsimp only at hhead
              rw [hs] at hhead
              cases hhead
            · exact htail
          obtain ⟨it', hm, p', s', h1, h2, h3, h4⟩ := ih hex2 hany'
          exact ⟨it', List.mem_cons_of_mem _ hm, p', s', h1, h2, h3,
            by simp [checkItems, hp, hs, h4]⟩

theorem snapshotPrice_eq {lookup : String → Option ProductR}
    {it : OrderItemRequest} {prod : ProductR} (hp : lookup it.productId = some prod) :
    it.price.getD (prod.price.getD 0) = snapshotPrice lookup it := by
  unfold snapshotPrice
  cases it.price <;> simp [hp]

theorem applyItems_spec (lookup : String → Option ProductR) (oid : Nat) :
    ∀ (items : List OrderItemRequest) (st0 : Store),
    items.all (fun it => (lookup it.productId).isSome) = true →
    ∃ st', applyItems lookup oid items st0 = some st'
      ∧ st'.users = st0.users ∧ st'.orders = st0.orders
      ∧ st'.nextOrderId = st0.nextOrderId
      ∧ st'.orderItems = st0.orderItems ++ items.map (fun it =>
          { orderId := oid, productId := it.productId, quantity := it.quantity,
            price := snapshotPrice lookup it })
      ∧ st'.products = items.foldl (fun ps it => stepProducts lookup it ps) st0.products := by
  intro items
  induction items with
  | nil => intro st0 _; exact ⟨st0, rfl, rfl, rfl, rfl, by simp, rfl⟩
  | cons it rest ih =>
      intro st0 hex
      rw [List.all_cons, Bool.and_eq_true] at hex
      obtain ⟨hex1, hex2⟩ := hex
      obtain ⟨prod, hp⟩ := Option.isSome_iff_exists.mp hex1
      obtain ⟨st', happ, h1, h2, h3, h4, h5⟩ := ih
        { st0 with
          orderItems := st0.orderItems ++
            [{ orderId := oid, productId := it.productId, quantity := it.quantity,
               price := it.price.getD (prod.price.getD 0) }],
          products :=
            if prod.stock.isSome
            then decrementStock it.productId it.quantity st0.products
            else st0.products } hex2
      refine ⟨st', ?_, h1, h2, h3, ?_, ?_⟩
      · simp only [applyItems, hp]
        exact happ
      · rw [h4]
        simp only [List.map_cons, snapshotPrice_eq hp]
        rw [List.append_assoc]
        rfl
      · rw [h5, List.foldl_cons]
        congr 1
        simp [stepProducts, hp]

theorem postOrders_success (st : Store) (payload : JValue)
    (data : CreateOrderRequest) (u : UserR)
    (hv : validateOrderPayload payload = .ok data)
    (hu : findUser st data.userId = some u)
    (hok : data.items.all (itemChecksOk (orderLookup st data.items)) = true) :
    ∃ st',
      postOrders st payload
        = (⟨201, .obj [("success", .bool true),
                       ("data", renderFullOrder st' (mkOrder st data))]⟩, st')
      ∧ st'.users = st.users
      ∧ st'.orders = st.orders ++ [mkOrder st data]
      ∧ st'.nextOrderId = st.nextOrderId + 1
      ∧ st'.orderItems = st.orderItems ++ data.items.map (fun it =>
          { orderId := st.nextOrderId, productId := it.productId,
            quantity := it.quantity,
            price := snapshotPrice (orderLookup st data.items) it })
      ∧ st'.products = data.items.foldl
          (fun ps it => stepProducts (orderLookup st data.items) it ps) st.products := by
  have hex : data.items.all
      (fun it => ((orderLookup st data.items) it.productId).isSome) = true := by
    rw [List.all_eq_true] at hok ⊢
    intro it hm
    have h := hok it hm
    unfold itemChecksOk at h
    cases hl : orderLookup st data.items it.productId with
    | none => rw [hl] at h; cases h
    | some p => simp [hl]
  have hchk : checkItems (orderLookup st data.items) data.items = none :=
    checkItems_none hok
  obtain ⟨st2, happ, h1, h2, h3, h4, h5⟩ :=
    applyItems_spec (orderLookup st data.items) st.nextOrderId data.items
      { st with orders := st.orders ++ [mkOrder st data],
                nextOrderId := st.nextOrderId + 1 } hex
  refine ⟨st2, ?_, h1, h2, by rw [h3], h4, h5⟩
  unfold postOrders
  rw [hv]
  dsimp only
  rw [hu]
  dsimp only
  rw [hchk]
  dsimp only
  unfold createOrderTx
  dsimp only
  simp only [mkOrder] at happ ⊢
  rw [happ]
  rfl

theorem stepProducts_eq_map (lookup : String → Option ProductR)
    (it : OrderItemRequest) (ps : List ProductR) :
    stepProducts lookup it ps = ps.map (stepF lookup it) := by
  unfold stepProducts stepF decrementStock
  cases h : lookup it.productId with
  | none => simp
  | some prod =>
      by_cases hs : prod.stock.isSome
      · simp only [hs, if_true]
        apply List.map_congr_left
        intro p _
        by_cases hid : p.id = it.productId <;> simp [hid, hs]
      · simp only [hs]
        simp only [Bool.false_eq_true, if_false, false_and]
        simp

theorem foldl_stepF (lookup : String → Option ProductR) :
    ∀ (items : List OrderItemRequest) (ps0 : List ProductR),
    items.foldl (fun ps it => stepProducts lookup it ps) ps0
      = ps0.map (fun p => items.foldl (fun acc it => stepF lookup it acc) p) := by
  intro items
  induction items with
  | nil => intro ps0; simp
  | cons it rest ih =>
      intro ps0
      rw [List.foldl_cons, stepProducts_eq_map, ih, List.map_map]
      rfl

theorem foldl_stepF_none (lookup : String → Option ProductR) (p : ProductR)
    (hstock : p.stock = none) :
    ∀ (items : List OrderItemRequest),
    (∀ it ∈ items, it.productId = p.id → lookup p.id = some p) →
    items.foldl (fun acc it => stepF lookup it acc) p = p := by
  intro items
  induction items with
  | nil => intro _; rfl
  | cons it rest ih =>
      intro hL
      rw [List.foldl_cons]
      have hstep : stepF lookup it p = p := by
        unfold stepF
        by_cases hid : it.productId = p.id
        · rw [hid, hL it (List.mem_cons_self _ _) hid]
          simp [hstock, hid]
        · cases h : lookup it.productId with
          | none => rfl
          | some prod => simp [show ¬ p.id = it.productId from fun h' => hid (h'.symm)]
      rw [hstep]
      exact ih (fun it' hm hid => hL it' (List.mem_cons_of_mem _ hm) hid)

theorem foldl_stepF_some (lookup : String → Option ProductR) (p : ProductR)
    (htracked : p.stock.isSome = true) :
    ∀ (items : List OrderItemRequest) (s : ℚ),
    (∀ it ∈ items, it.productId = p.id → lookup p.id = some p) →
    items.foldl (fun acc it => stepF lookup it acc) { p with stock := some s }
      = { p with stock := some (s - totalQty items p.id) } := by
  intro items
  induction items with
  | nil =>
      intro s _
      simp [totalQty]
  | cons it rest ih =>
      intro s hL
      rw [List.foldl_cons]
      have hLrest : ∀ it' ∈ rest, it'.productId = p.id → lookup p.id = some p :=
        fun it' hm hid => hL it' (List.mem_cons_of_mem _ hm) hid
      by_cases hid : it.productId = p.id
      · have hstep : stepF lookup it { p with stock := some s }
            = { p with stock := some (s - it.quantity) } := by
          unfold stepF
          rw [hid, hL it (List.mem_cons_self _ _) hid]
          simp [htracked, hid]
        rw [hstep, ih (s - it.quantity) hLrest]
        have ht : totalQty (it :: rest) p.id = it.quantity + totalQty rest p.id := by
          simp [totalQty, hid]
        rw [ht, sub_sub]
      · have hstep : stepF lookup it { p with stock := some s }
            = { p with stock := some s } := by
          unfold stepF
          cases h : lookup it.productId with
          | none => rfl
          | some prod => simp [show ¬ p.id = it.productId from fun h' => hid (h'.symm)]
        rw [hstep, ih s hLrest]
        have ht : totalQty (it :: rest) p.id = totalQty rest p.id := by
          simp [totalQty, hid]
        rw [ht]

theorem products_after_map {st : Store} {items : List OrderItemRequest}
    (hnd : (st.products.map ProductR.id).Nodup) :
    items.foldl (fun ps it => stepProducts (orderLookup st items) it ps) st.products
      = st.products.map (decAllProducts items) := by
  rw [foldl_stepF]
  apply List.map_congr_left
  intro p hp
  have hL : ∀ it ∈ items, it.productId = p.id → orderLookup st items p.id = some p := by
    intro it hm hid
    apply orderLookup_self hnd hp
    exact List.elem_iff.mpr (hid ▸ List.mem_map_of_mem OrderItemRequest.productId hm)
  cases hstock : p.stock with
  | none =>
      rw [foldl_stepF_none _ _ hstock items hL]
      unfold decAllProducts
      rw [hstock]
  | some s =>
      have hps : p = { p with stock := some s } := by rw [← hstock]
      have htracked : p.stock.isSome = true := by rw [hstock]; rfl
      conv_lhs => rw [hps]
      rw [foldl_stepF_some _ _ htracked items s hL]
      unfold decAllProducts
      rw [hstock]

/-- A string equal to `pre ++ (b ++ post)` contains `b`. -/
theorem strContains_of_eq {s b : String} (pre post : String)
    (h : s = pre ++ (b ++ post)) : strContains s b = true := by
  subst h
  unfold strContains
  have hl : (pre ++ (b ++ post)).toList = pre.toList ++ (b.toList ++ post.toList) := by
    simp [String.toList, String.data_append]
  rw [hl]
  exact charsContain_parts _ _ _

/-! ## Claim C1: successful order creation -/

/-- Claim C1: when the payload validates and every precondition holds (the
user exists and every item's product is in the snapshot with enough
tracked stock), POST /orders answers 201, the created order has status
"pending" and the payload's total, and each created order item records the
explicit item price when given, else the product's current catalog price,
else 0 (`snapshotPrice`). -/
theorem claim_C1 (st : Store) (payload : JValue) (data : CreateOrderRequest) (u : UserR)
    (hv : validateOrderPayload payload = .ok data)
    (hu : findUser st data.userId = some u)
    (hok : data.items.all (itemChecksOk (orderLookup st data.items)) = true) :
    ∃ st',
      postOrders st payload
        = (⟨201, .obj [("success", .bool true),
                       ("data", renderFullOrder st' (mkOrder st data))]⟩, st')
      ∧ (mkOrder st data).status = "pending"
      ∧ (mkOrder st data).total = data.total
      ∧ st'.orders = st.orders ++ [mkOrder st data]
      ∧ st'.orderItems = st.orderItems ++ data.items.map (fun it =>
          { orderId := st.nextOrderId, productId := it.productId,
            quantity := it.quantity,
            price := snapshotPrice (orderLookup st data.items) it })
      ∧ (∀ it ∈ data.items, ∀ pr, it.price = some pr →
          snapshotPrice (orderLookup st data.items) it = pr)
      ∧ (∀ it ∈ data.items, it.price = none →
          ∀ p, orderLookup st data.items it.productId = some p →
          snapshotPrice (orderLookup st data.items) it = p.price.getD 0) := by
  obtain ⟨st', hpost, _, ho, _, hoi, _⟩ := postOrders_success st payload data u hv hu hok
  refine ⟨st', hpost, rfl, rfl, ho, hoi, ?_, ?_⟩
  · intro it _ pr hpr
    unfold snapshotPrice
    rw [hpr]
  · intro it _ hpr p hp
    unfold snapshotPrice
    rw [hpr, hp]

/-- Witness for C1: quantity 2 of p1 at catalog price 20 against stock 5. -/
theorem claim_C1_witness :
    ∃ st',
      postOrders exampleStore okPayload
        = (⟨201, .obj [("success", .bool true),
                       ("data", renderFullOrder st' (mkOrder exampleStore okRequest))]⟩, st')
      ∧ (mkOrder exampleStore okRequest).status = "pending"
      ∧ (mkOrder exampleStore okRequest).total = okRequest.total
      ∧ st'.orders = exampleStore.orders ++ [mkOrder exampleStore okRequest]
      ∧ st'.orderItems = exampleStore.orderItems ++ okRequest.items.map (fun it =>
          { orderId := exampleStore.nextOrderId, productId := it.productId,
            quantity := it.quantity,
            price := snapshotPrice (orderLookup exampleStore okRequest.items) it })
      ∧ (∀ it ∈ okRequest.items, ∀ pr, it.price = some pr →
          snapshotPrice (orderLookup exampleStore okRequest.items) it = pr)
      ∧ (∀ it ∈ okRequest.items, it.price = none →
          ∀ p, orderLookup exampleStore okRequest.items it.productId = some p →
          snapshotPrice (orderLookup exampleStore okRequest.items) it = p.price.getD 0) :=
  claim_C1 exampleStore okPayload okRequest
    { id := "u1", name := "Alice", email := "alice@example.com",
      password := "5e884898da280471" } rfl rfl (by decide)

/-! ## Claim C2: insufficient stock -/

/-- Claim C2: when the payload validates, the user exists, every item's
product is in the snapshot, and some item requests more than its product's
tracked stock, POST /orders answers 400 with the insufficient-stock
message of such an item — the message contains the product's name and id
and states the requested and available quantities — and the store is left
unchanged (no order is created). -/
theorem claim_C2 (st : Store) (payload : JValue) (data : CreateOrderRequest) (u : UserR)
    (hv : validateOrderPayload payload = .ok data)
    (hu : findUser st data.userId = some u)
    (hex : data.items.all
      (fun it => ((orderLookup st data.items) it.productId).isSome) = true)
    (hbad : data.items.any (stockExceeded (orderLookup st data.items)) = true) :
    ∃ it ∈ data.items, ∃ p s,
      orderLookup st data.items it.productId = some p ∧ p.stock = some s
      ∧ s < it.quantity
      ∧ postOrders st payload
          = (⟨400, errorBody (insufficientMsg p.name p.id it.quantity s)⟩, st)
      ∧ strContains (insufficientMsg p.name p.id it.quantity s) p.name = true
      ∧ strContains (insufficientMsg p.name p.id it.quantity s) p.id = true
      ∧ strContains (insufficientMsg p.name p.id it.quantity s)
          (toString it.quantity) = true
      ∧ strContains (insufficientMsg p.name p.id it.quantity s) (toString s) = true := by
  obtain ⟨it, hm, p, s, h1, h2, h3, h4⟩ := checkItems_insufficient hex hbad
  refine ⟨it, hm, p, s, h1, h2, h3, ?_, ?_, ?_, ?_, ?_⟩
  · unfold postOrders
    rw [hv]
    dsimp only
    rw [hu]
    dsimp only
    rw [h4]
  · exact strContains_of_eq "Insufficient stock for product "
      (" (" ++ (p.id ++ ("). Requested " ++ (toString it.quantity
        ++ (", available " ++ (toString s ++ "."))))))
      (by simp [insufficientMsg, String.append_assoc])
  · exact strContains_of_eq ("Insufficient stock for product " ++ (p.name ++ " ("))
      ("). Requested " ++ (toString it.quantity ++ (", available " ++ (toString s ++ "."))))
      (by simp [insufficientMsg, String.append_assoc])
  · exact strContains_of_eq
      ("Insufficient stock for product " ++ (p.name ++ (" (" ++ (p.id ++ "). Requested "))))
      (", available " ++ (toString s ++ "."))
      (by simp [insufficientMsg, String.append_assoc])
  · exact strContains_of_eq
      ("Insufficient stock for product " ++ (p.name ++ (" (" ++ (p.id
        ++ ("). Requested " ++ (toString it.quantity ++ ", available "))))))
      "."
      (by simp [insufficientMsg, String.append_assoc])

/-- Witness for C2: the spec's example, quantity 10 against stock 5. -/
theorem claim_C2_witness :
    ∃ it ∈ exceedRequest.items, ∃ p s,
      orderLookup exampleStore exceedRequest.items it.productId = some p
      ∧ p.stock = some s
      ∧ s < it.quantity
      ∧ postOrders exampleStore exceedPayload
          = (⟨400, errorBody (insufficientMsg p.name p.id it.quantity s)⟩, exampleStore)
      ∧ strContains (insufficientMsg p.name p.id it.quantity s) p.name = true
      ∧ strContains (insufficientMsg p.name p.id it.quantity s) p.id = true
      ∧ strContains (insufficientMsg p.name p.id it.quantity s)
          (toString it.quantity) = true
      ∧ strContains (insufficientMsg p.name p.id it.quantity s) (toString s) = true :=
  claim_C2 exampleStore exceedPayload exceedRequest
    { id := "u1", name := "Alice", email := "alice@example.com",
      password := "5e884898da280471" } rfl rfl (by decide) (by decide)

/-! ## Claim C3: stock frame effect -/

/-- Claim C3: on a successful creation (product ids unique in the store),
every tracked product's stock drops by exactly the total quantity ordered
of it, and untracked products as well as products not referenced by the
order are unchanged. -/
theorem claim_C3 (st : Store) (payload : JValue) (data : CreateOrderRequest) (u : UserR)
    (hv : validateOrderPayload payload = .ok data)
    (hu : findUser st data.userId = some u)
    (hok : data.items.all (itemChecksOk (orderLookup st data.items)) = true)
    (hnd : (st.products.map ProductR.id).Nodup) :
    ∃ st', postOrders st payload
        = (⟨201, .obj [("success", .bool true),
                       ("data", renderFullOrder st' (mkOrder st data))]⟩, st')
      ∧ st'.products = st.products.map (decAllProducts data.items)
      ∧ (∀ p ∈ st.products, ∀ s, p.stock = some s →
          { id := p.id, name := p.name, price := p.price,
            stock := some (s - totalQty data.items p.id) } ∈ st'.products)
      ∧ (∀ p ∈ st.products, p.stock = none → p ∈ st'.products)
      ∧ (∀ p ∈ st.products, (∀ it ∈ data.items, ¬ it.productId = p.id) →
          p ∈ st'.products) := by
  obtain ⟨st', hpost, _, _, _, _, hpr⟩ := postOrders_success st payload data u hv hu hok
  have hprod : st'.products = st.products.map (decAllProducts data.items) := by
    rw [hpr, products_after_map hnd]
  refine ⟨st', hpost, hprod, ?_, ?_, ?_⟩
  · intro p hp s hs
    rw [hprod]
    have : decAllProducts data.items p
        = { id := p.id, name := p.name, price := p.price,
            stock := some (s - totalQty data.items p.id) } := by
      unfold decAllProducts
      rw [hs]
    exact this ▸ List.mem_map_of_mem _ hp
  · intro p hp hs
    rw [hprod]
    have : decAllProducts data.items p = p := by
      unfold decAllProducts
      rw [hs]
    exact this ▸ List.mem_map_of_mem _ hp
  · intro p hp href
    rw [hprod]
    have : decAllProducts data.items p = p := by
      unfold decAllProducts
      cases hs : p.stock with
      | none => rfl
      | some s =>
          have ht : totalQty data.items p.id = 0 := by
            unfold totalQty
            have hfil : data.items.filter (fun it => decide (it.productId = p.id)) = [] := by
              apply List.filter_eq_nil_iff.mpr
              intro it hm
              simp [href it hm]
            rw [hfil]
            rfl
          dsimp only
          rw [ht, sub_zero, ← hs]
    exact this ▸ List.mem_map_of_mem _ hp

/-- Witness for C3 at the concrete valid order (stock 5, quantity 2). -/
theorem claim_C3_witness :
    ∃ st', postOrders exampleStore okPayload
        = (⟨201, .obj [("success", .bool true),
                       ("data", renderFullOrder st' (mkOrder exampleStore okRequest))]⟩, st')
      ∧ st'.products = exampleStore.products.map (decAllProducts okRequest.items)
      ∧ (∀ p ∈ exampleStore.products, ∀ s, p.stock = some s →
          { id := p.id, name := p.name, price := p.price,
            stock := some (s - totalQty okRequest.items p.id) } ∈ st'.products)
      ∧ (∀ p ∈ exampleStore.products, p.stock = none → p ∈ st'.products)
      ∧ (∀ p ∈ exampleStore.products, (∀ it ∈ okRequest.items, ¬ it.productId = p.id) →
          p ∈ st'.products) :=
  claim_C3 exampleStore okPayload okRequest
    { id := "u1", name := "Alice", email := "alice@example.com",
      password := "5e884898da280471" } rfl rfl (by decide) (by decide)

/-! ## Claim C7: passwords never serialized -/

theorem sanitizeUser_clean (u : JValue) : topNoPassword (sanitizeUser u) = true := by
  unfold sanitizeUser
  by_cases ht : truthy u = false
  · rw [if_pos ht]
    cases u <;> first | rfl | (exfalso; simp [truthy] at ht)
  · rw [if_neg ht]
    cases u with
    | obj fs =>
        simp only [topNoPassword]
        rw [List.all_eq_true]
        intro kv hkv
        exact (List.mem_filter.mp hkv).2
    | null => rfl
    | bool b => rfl
    | num n => rfl
    | str s => rfl
    | arr xs => rfl

theorem respClean_sanitize (u : JValue) : respClean (sanitizeUser u) = true := by
  have h := sanitizeUser_clean u
  unfold sanitizeUser at h ⊢
  by_cases ht : truthy u = false
  · rw [if_pos ht] at h ⊢
    cases u <;> simp_all [respClean, truthy, topNoPassword]
  · rw [if_neg ht] at h ⊢
    cases u <;> simp_all [respClean, topNoPassword]

/-- Claim C7: no user-facing handler response carries a user's password
field.  Every user object the users route returns (GET all, GET by
id/email, POST, PUT, DELETE) goes through `sanitizeUser` and has no
top-level "password" key, including the user embedded in the DELETE
envelope; and the user projection the orders route embeds (in GET /orders
and in the POST /orders success body, both built from `renderFullOrder`)
has exactly the keys id, name, email. -/
theorem claim_C7 :
    (∀ us idP emailP, respClean (getUsers us idP emailP).body = true)
    ∧ (∀ hash genId now us body,
        respClean (postUsers hash genId now us body).1.body = true)
    ∧ (∀ hash now us idP emailP updates,
        respClean (putUsers hash now us idP emailP updates).1.body = true)
    ∧ (∀ us idP emailP, respClean (deleteUsers us idP emailP).1.body = true)
    ∧ (∀ us idP emailP u,
        objGet (deleteUsers us idP emailP).1.body "user" = some u →
        topNoPassword u = true)
    ∧ (∀ u : UserR, jvalKeys (renderUserSelect u) = ["id", "name", "email"])
    ∧ (∀ st o, objGet (renderFullOrder st o) "user" = some .null
        ∨ ∃ u, findUser st o.userId = some u
            ∧ objGet (renderFullOrder st o) "user" = some (renderUserSelect u))
    ∧ (∀ st, (getOrders st).body
        = .obj [("success", .bool true),
                ("data", .arr (st.orders.reverse.map (renderFullOrder st)))]) := by
  refine ⟨?_, ?_, ?_, ?_, ?_, fun u => rfl, ?_, fun st => rfl⟩
  · intro us idP emailP
    unfold getUsers
    split
    · split
      · rfl
      · exact respClean_sanitize _
    · split
      · split
        · rfl
        · exact respClean_sanitize _
      · simp only [respClean, List.all_eq_true]
        intro v hv
        obtain ⟨w, _, rfl⟩ := List.mem_map.mp hv
        exact sanitizeUser_clean w
  · intro hash genId now us body
    unfold postUsers
    split
    · rfl
    · split
      · split
        · rfl
        · split
          · try dsimp only
            exact respClean_sanitize _
          · rfl
      · rfl
  · intro hash now us idP emailP updates
    unfold putUsers
    split
    · rfl
    · try dsimp only
      split
      · rfl
      · try dsimp only
        split
        · rfl
        · try dsimp only
          split
          · rfl
          · split
            · simp [respClean_sanitize]
            · simp [respClean_sanitize]
  · intro us idP emailP
    unfold deleteUsers
    split
    · rfl
    · try dsimp only
      split
      · rfl
      · try dsimp only
        split
        · rfl
        · split <;> rfl
  · intro us idP emailP u
    unfold deleteUsers
    split
    · intro h; cases h
    · try dsimp only
      split
      · intro h; cases h
      · try dsimp only
        split
        · intro h; cases h
        · split <;>
          · intro h
            simp only [objGet, lookupField] at h
            injection h with h
            rw [← h]
            exact sanitizeUser_clean _
  · intro st o
    cases h : findUser st o.userId with
    | some u =>
        right
        exact ⟨u, rfl, by simp [renderFullOrder, objGet, lookupField, h]⟩
    | none =>
        left
        simp [renderFullOrder, objGet, lookupField, h]

/-! ## Claim C8: catalog paging -/

/-- Counterexample to claim C8: a page parameter that coerces to NaN (for
example `?page=abc`) makes the effective page `Math.max(1, NaN) = NaN`,
which is not a number at least 1 — the response's `meta.page` is NaN. -/
theorem claim_C8_counterexample :
    catalogGet [] "" none (some .nan) none none none
      = ⟨200, .obj [("data", .arr []),
          ("meta", .obj [("total", .num (.fin 0)), ("page", .num .nan),
                         ("limit", .num (.fin 20))])]⟩
    ∧ JNum.jle (.fin 1) .nan = false
    ∧ (∀ q : ℚ, JNum.nan ≠ .fin q) :=
  ⟨rfl, rfl, fun _ h => JNum.noConfusion h⟩

theorem jmax_fin (a b : ℚ) :
    JNum.jmax (.fin a) (.fin b) = .fin (if a ≤ b then b else a) := by
  unfold JNum.jmax JNum.jle
  by_cases h : a ≤ b <;> simp [h]

theorem jmin_fin (a b : ℚ) :
    JNum.jmin (.fin a) (.fin b) = .fin (if a ≤ b then a else b) := by
  unfold JNum.jmin JNum.jle
  by_cases h : a ≤ b <;> simp [h]

theorem insertSorted_length (cmp : α → α → Int) (x : α) :
    ∀ l : List α, (insertSorted cmp x l).length = l.length + 1 := by
  intro l
  induction l with
  | nil => rfl
  | cons y ys ih =>
      unfold insertSorted
      split
      · rfl
      · simp [ih]

theorem sortByCmp_length (cmp : α → α → Int) :
    ∀ l : List α, (sortByCmp cmp l).length = l.length := by
  intro l
  induction l with
  | nil => rfl
  | cons x xs ih => simp [sortByCmp, insertSorted_length, ih]

theorem resolveIdx_intCast (len : Nat) (P : ℤ) (hP : 0 ≤ P) :
    resolveIdx len (.fin (P : ℚ)) = min P.toNat len := by
  unfold resolveIdx
  dsimp only
  have ht : ratTrunc ((P : ℤ) : ℚ) = P := by
    unfold ratTrunc
    rw [if_neg (by exact_mod_cast not_lt.mpr hP), Int.floor_intCast]
  rw [ht, if_neg (not_lt.mpr hP)]

theorem jsSlice_length_le (l : List α) (P L : ℤ) (hP : 0 ≤ P) (hL : 0 ≤ L) :
    (jsSlice l (.fin (P : ℚ)) (.fin (((P + L : ℤ) : ℚ)))).length ≤ L.toNat := by
  unfold jsSlice
  dsimp only
  rw [resolveIdx_intCast _ P hP, resolveIdx_intCast _ (P + L) (by omega)]
  rw [List.length_take, List.length_drop]
  have h1 : (P + L).toNat = P.toNat + L.toNat := by omega
  omega

/-- Claim C8 as amended: for every catalog query whose page and limit
parameters are absent or coerce to finite integers, the effective page
number is at least 1, the effective page size is clamped to 1..100
(defaulting to 20 when the parameter is absent), the returned page holds
at most that many items, and `meta.total` is the full match count of the
search and category filters, independent of the page.  (A parameter that
coerces to NaN, or to a fractional value, escapes these bounds — see the
counterexample.) -/
theorem claim_C8 (ps : List JValue) (search : String) (category : Option String)
    (pageP limitP : Option JNum) (sortP orderP : Option String)
    (hp : pageP = none ∨ ∃ n : ℤ, pageP = some (.fin (n : ℚ)))
    (hl : limitP = none ∨ ∃ m : ℤ, limitP = some (.fin (m : ℚ))) :
    ∃ (pz lz : ℤ) (paged : List JValue),
      catalogGet ps search category pageP limitP sortP orderP
        = ⟨200, .obj [("data", .arr paged),
            ("meta", .obj [("total",
                .num (.fin ((filterProducts ps search (normParam category)).length : ℚ))),
              ("page", .num (.fin (pz : ℚ))), ("limit", .num (.fin (lz : ℚ)))])]⟩
      ∧ 1 ≤ pz ∧ 1 ≤ lz ∧ lz ≤ 100 ∧ (limitP = none → lz = 20)
      ∧ paged.length ≤ lz.toNat := by
  obtain ⟨pz, hpz1, hpzE⟩ :
      ∃ pz : ℤ, 1 ≤ pz ∧
        JNum.jmax (.fin 1) (pageP.getD (.fin 1)) = .fin (pz : ℚ) := by
    rcases hp with rfl | ⟨n, rfl⟩
    · exact ⟨1, le_refl _, rfl⟩
    · by_cases h1 : (1 : ℚ) ≤ (n : ℚ)
      · exact ⟨n, by exact_mod_cast h1, by simp [jmax_fin, h1]⟩
      · exact ⟨1, le_refl _, by simp [jmax_fin, h1]⟩
  obtain ⟨lz, hlz1, hlz100, hlzD, hlzE⟩ :
      ∃ lz : ℤ, 1 ≤ lz ∧ lz ≤ 100 ∧ (limitP = none → lz = 20) ∧
        JNum.jmin (.fin 100) (JNum.jmax (.fin 1) (limitP.getD (.fin 20)))
          = .fin (lz : ℚ) := by
    rcases hl with rfl | ⟨m, rfl⟩
    · exact ⟨20, by norm_num, by norm_num, fun _ => rfl, rfl⟩
    · by_cases h1 : (1 : ℚ) ≤ (m : ℚ)
      · by_cases h2 : (100 : ℚ) ≤ (m : ℚ)
        · exact ⟨100, by norm_num, le_refl _, fun h => Option.noConfusion h,
            by simp [jmin_fin, jmax_fin, h1, h2]⟩
        · refine ⟨m, by exact_mod_cast h1, by exact_mod_cast le_of_not_le h2,
            fun h => Option.noConfusion h, ?_⟩
          simp [jmin_fin, jmax_fin, h1, h2]
      · exact ⟨1, le_refl _, by norm_num, fun h => Option.noConfusion h,
          by simp [jmin_fin, jmax_fin, h1, show ¬(100 : ℚ) ≤ 1 by norm_num]⟩
  unfold catalogGet
  rw [hpzE, hlzE]
  dsimp only
  have hstart : JNum.jsub (.fin (pz : ℚ)) (.fin 1)
      = .fin (((pz - 1 : ℤ) : ℚ)) := by
    unfold JNum.jsub JNum.jadd JNum.jneg
    push_cast
    ring_nf
  rw [hstart]
  have hmul : JNum.jmul (.fin (((pz - 1 : ℤ)) : ℚ)) (.fin (lz : ℚ))
      = .fin ((((pz - 1) * lz : ℤ)) : ℚ) := by
    unfold JNum.jmul
    push_cast
    ring_nf
  rw [hmul]
  have hadd : JNum.jadd (.fin ((((pz - 1) * lz : ℤ)) : ℚ)) (.fin (lz : ℚ))
      = .fin ((((pz - 1) * lz + lz : ℤ)) : ℚ) := by
    unfold JNum.jadd
    push_cast
    ring_nf
  rw [hadd]
  refine ⟨pz, lz, _, rfl, hpz1, hlz1, hlz100, hlzD, ?_⟩
  have hle := jsSlice_length_le
    (sortByCmp (cmpProducts ((normParam sortP).getD "createdAt")
        (strToLower ((normParam orderP).getD "desc") = "asc"))
      (filterProducts ps search (normParam category)))
    ((pz - 1) * lz) lz (mul_nonneg (by omega) (by omega)) (by omega)
  exact hle

/-- Witness for C8 at a concrete query: page 2, limit 10 over an empty
catalog. -/
theorem claim_C8_witness :
    ∃ (pz lz : ℤ) (paged : List JValue),
      catalogGet [] "" none (some (.fin ((2 : ℤ) : ℚ)))
          (some (.fin ((10 : ℤ) : ℚ))) none none
        = ⟨200, .obj [("data", .arr paged),
            ("meta", .obj [("total",
                .num (.fin ((filterProducts [] "" (normParam none)).length : ℚ))),
              ("page", .num (.fin (pz : ℚ))), ("limit", .num (.fin (lz : ℚ)))])]⟩
      ∧ 1 ≤ pz ∧ 1 ≤ lz ∧ lz ≤ 100
      ∧ ((some (.fin ((10 : ℤ) : ℚ)) : Option JNum) = none → lz = 20)
      ∧ paged.length ≤ lz.toNat :=
  claim_C8 [] "" none (some (.fin ((2 : ℤ) : ℚ))) (some (.fin ((10 : ℤ) : ℚ))) none none
    (Or.inr ⟨2, rfl⟩) (Or.inr ⟨10, rfl⟩)

end ShopFlux
